import Mathlib

/-!
Verification development for the Polymarket market-making bot.

Shallow embedding of the core components of the repository in Lean 4.
Python floats are modelled by exact rationals (`ℚ`), except for the capital
allocator whose weight formula uses `math.exp` and `**` and is therefore
modelled over `ℝ` with `Real.exp` and `Real.rpow`. Python `int` is modelled
by `ℤ` (by `ℕ` where the source can only produce non-negative values).
Dictionaries are modelled as association lists preserving insertion order,
matching CPython dict semantics for distinct keys.
-/

namespace PMM

/-- The helper `clamp` from `src/pmm/utils/math.py`: `max(lo, min(hi, x))`. -/
def clamp (x lo hi : ℚ) : ℚ := max lo (min hi x)

/-- Python's `str.upper()` restricted to ASCII, mapping `Char.toUpper` over
the characters (the sides handled by the code are ASCII). -/
def pyUpper (s : String) : String := String.mk (s.data.map Char.toUpper)

/-- Insertion-order-preserving update of an association list, modelling
`d[k] = v` on a CPython dict: overwrite the first binding of `k` in place,
or append a new binding at the end. -/
def dictSet {α : Type} (d : List (String × α)) (k : String) (v : α) : List (String × α) :=
  match d with
  | [] => [(k, v)]
  | (k', v') :: rest => if k' = k then (k, v) :: rest else (k', v') :: dictSet rest k v

/-- Lookup modelling `d.get(k, default)`. -/
def dictGetD {α : Type} (d : List (String × α)) (k : String) (dfl : α) : α :=
  match d with
  | [] => dfl
  | (k', v') :: rest => if k' = k then v' else dictGetD rest k dfl

/-! ## Spread quoter (`src/pmm/strategy/mm_spread.py`) -/

/-- A two-sided quote as produced by the spread quoter. -/
structure Quote where
  side : String
  price : ℚ
  size : ℚ
  deriving Repr, DecidableEq

/-- Configuration of `SymmetricSpreadMM`. -/
structure SymmetricSpreadMM where
  target_spread_bps : ℚ
  max_usd : ℚ
  alpha_scale : ℚ
  deriving Repr

/-- Translation of `SymmetricSpreadMM.quotes`:
`spread = mid * (bps/10000)`, `bid = clamp(mid - spread/2, 0.001, 0.999)`,
`ask = clamp(mid + spread/2, ...)`, sizes `max(1, usd_each_side / max(0.01, px))`
with `usd_each_side = (max_usd/2) * alpha_scale`. -/
def SymmetricSpreadMM.quotes (q : SymmetricSpreadMM) (midpoint : ℚ) : List Quote :=
  let mid := midpoint
  let spread := mid * (q.target_spread_bps / 10000)
  let bid := clamp (mid - spread / 2) (1/1000) (999/1000)
  let ask := clamp (mid + spread / 2) (1/1000) (999/1000)
  let usd_each_side := (q.max_usd / 2) * q.alpha_scale
  let bid_size := max 1 (usd_each_side / max (1/100) bid)
  let ask_size := max 1 (usd_each_side / max (1/100) ask)
  [⟨"BUY", bid, bid_size⟩, ⟨"SELL", ask, ask_size⟩]

/-- The spec's bid price for midpoint `m` and spread `s` bps, with the offset
amended to half the relative spread: `half = (m·s/10000)/2`. -/
def specBidPrice (m s : ℚ) : ℚ := clamp (m - m * (s / 10000) / 2) (1/1000) (999/1000)

/-- The spec's ask price, amended as in `specBidPrice`. -/
def specAskPrice (m s : ℚ) : ℚ := clamp (m + m * (s / 10000) / 2) (1/1000) (999/1000)

/-- The spec's size formula: `max(1, u / max(0.01, px))` for per-side budget `u`. -/
def specQuoteSize (u px : ℚ) : ℚ := max 1 (u / max (1/100) px)

/-- The claim's (unamended) bid price: offset of the full `m·s/10000`. -/
def claimBidPrice (m s : ℚ) : ℚ := clamp (m - m * (s / 10000)) (1/1000) (999/1000)

/-! ## Calibrator (`src/pmm/strategy/calibrator.py`) -/

/-- Per-market calibration state counters. -/
structure MarketCalibState where
  fills : ℤ
  quotes : ℤ
  markout_sum : ℚ
  realized_spread_sum : ℚ
  deriving Repr, DecidableEq

/-- Per-market calibration parameters. -/
structure MarketCalibParams where
  alpha : ℚ
  target_spread_bps : ℚ
  max_usd : ℚ
  quote_refresh_sec : ℚ
  cancel_reprice_sec : ℚ
  state : MarketCalibState
  deriving Repr, DecidableEq

/-- Translation of `Calibrator.next_params`. Mirrors the source exactly:
early return of `prev` when `quotes <= 0`, the two spread heuristics, the
clamp of spread to `[20,500]`, and the scaled, clamped refresh cadences. -/
def nextParams (prev : MarketCalibParams) : MarketCalibParams :=
  let st := prev.state
  if st.quotes ≤ 0 then prev
  else
    let fill_rate : ℚ := (st.fills : ℚ) / ((max 1 st.quotes : ℤ) : ℚ)
    let avg_markout : ℚ := st.markout_sum / ((max 1 st.fills : ℤ) : ℚ)
    let spread0 := prev.target_spread_bps
    let spread1 :=
      if 5 ≤ st.fills ∧ avg_markout < 0 then
        spread0 * (1 + min (1/2) (|avg_markout| * 5))
      else if fill_rate < 1/100 ∧ 500 < st.quotes then
        spread0 * (9/10)
      else spread0
    let spread := max 20 (min spread1 500)
    let quote_refresh := min 10 (max 1 (prev.quote_refresh_sec * (spread / prev.target_spread_bps)))
    let cancel_reprice := min 60 (max 5 (prev.cancel_reprice_sec * (spread / prev.target_spread_bps)))
    { alpha := prev.alpha
    , target_spread_bps := spread
    , max_usd := prev.max_usd
    , quote_refresh_sec := quote_refresh
    , cancel_reprice_sec := cancel_reprice
    , state := st }

/-- Concrete calibration parameters used as the C5 witness input: a market
with 10 fills over 100 quotes and negative cumulative markout, as in the
spec's widening example. -/
def calibTrip : MarketCalibParams :=
  { alpha := 1, target_spread_bps := 60, max_usd := 10
  , quote_refresh_sec := 3, cancel_reprice_sec := 20
  , state := ⟨10, 100, -(2/100), 0⟩ }

/-! ## Inventory engine (`src/pmm/analytics/inventory.py`) -/

/-- Per-token position. -/
structure Position where
  qty : ℚ
  avg_cost : ℚ
  realized : ℚ
  deriving Repr, DecidableEq

/-- The fresh position `Position()` used by `self.pos.get(token_id, Position())`. -/
def Position.init : Position := ⟨0, 0, 0⟩

/-- Inventory engine state: cash plus a per-token position table (modelled as a
total function, `Position.init` standing for absent keys). -/
structure InventoryEngine where
  cash : ℚ
  pos : String → Position

/-- Translation of `InventoryEngine.apply_fill`. BUY updates the average cost
before the quantity (as the source does); SELL realizes PnL on
`min(size, qty)` and resets the position when `qty <= 1e-12`. -/
def InventoryEngine.apply_fill (inv : InventoryEngine) (token_id side : String)
    (price size fee : ℚ) : InventoryEngine :=
  let side := pyUpper side
  let p := inv.pos token_id
  if side = "BUY" then
    let cost := price * size + fee
    let new_qty := p.qty + size
    let avg' := if (1:ℚ)/10^12 < new_qty then (p.avg_cost * p.qty + price * size) / new_qty
                else p.avg_cost
    let p' : Position := { qty := new_qty, avg_cost := avg', realized := p.realized }
    { cash := inv.cash - cost, pos := fun t => if t = token_id then p' else inv.pos t }
  else
    let proceeds := price * size - fee
    let sell_size := min size p.qty
    let realized' := p.realized + (price - p.avg_cost) * sell_size
    let qty1 := p.qty - sell_size
    let p' : Position :=
      if qty1 ≤ (1:ℚ)/10^12 then { qty := 0, avg_cost := 0, realized := realized' }
      else { qty := qty1, avg_cost := p.avg_cost, realized := realized' }
    { cash := inv.cash + proceeds, pos := fun t => if t = token_id then p' else inv.pos t }

/-- A fill row as consumed by the control loop (`load_fills_from_trades`). -/
structure Fill where
  token_id : String
  side : String
  price : ℚ
  size : ℚ
  fee : ℚ
  deriving Repr

/-- Applying a sequence of fills in order, as the control loop does. -/
def applyFills (fills : List Fill) (inv : InventoryEngine) : InventoryEngine :=
  fills.foldl (fun acc f => acc.apply_fill f.token_id f.side f.price f.size f.fee) inv

/-- The empty inventory with given starting cash. -/
def emptyInv (cash : ℚ) : InventoryEngine := { cash := cash, pos := fun _ => Position.init }

/-- The per-position invariant claimed by the spec, strengthened with the
epsilon gap that makes it inductive: quantity is zero or above the `1e-12`
dust threshold. -/
def PosOk (p : Position) : Prop :=
  0 ≤ p.qty ∧ (p.qty = 0 ∨ (1:ℚ)/10^12 < p.qty) ∧ (p.avg_cost = 0 ↔ p.qty = 0) ∧ 0 ≤ p.avg_cost

/-- A fill the amended C6 claim quantifies over: BUY or SELL, price in (0,1),
size zero or above the dust threshold, non-negative fee. -/
def FillOk (f : Fill) : Prop :=
  (f.side = "BUY" ∨ f.side = "SELL") ∧ 0 < f.price ∧ f.price < 1 ∧
  (f.size = 0 ∨ (1:ℚ)/10^12 < f.size) ∧ 0 ≤ f.fee

instance (f : Fill) : Decidable (FillOk f) := by
  unfold FillOk; infer_instance

instance (p : Position) : Decidable (PosOk p) := by
  unfold PosOk; infer_instance

/-! ## Circuit breaker (`src/pmm/strategy/circuit_breaker.py`) -/

/-- Circuit-breaker thresholds. -/
structure CircuitConfig where
  max_reject_rate : ℚ
  window_sec : ℤ
  max_cancels_per_min : ℤ
  max_errors : ℕ
  deriving Repr, DecidableEq

/-- Circuit-breaker rolling counters. `cancel_events` models the deque of
unix timestamps, oldest first. -/
structure CircuitState where
  placed : ℕ
  rejected : ℕ
  errors : ℕ
  cancel_events : List ℤ
  deriving Repr, DecidableEq

/-- The initial `CircuitState()`. -/
def CircuitState.init : CircuitState := ⟨0, 0, 0, []⟩

/-- Translation of `CircuitBreaker.record_place`. -/
def recordPlace (st : CircuitState) (ok : Bool) : CircuitState :=
  { st with placed := st.placed + 1, rejected := st.rejected + (if ok then 0 else 1) }

/-- The trim loop of `record_cancel`: pop from the left while
`now - events[0] > 60`. -/
def trimEvents (now : ℤ) : List ℤ → List ℤ
  | [] => []
  | t :: rest => if 60 < now - t then trimEvents now rest else t :: rest

/-- Translation of `CircuitBreaker.record_cancel` with the current time passed
explicitly (the source reads `int(time.time())`). -/
def recordCancel (st : CircuitState) (now : ℤ) : CircuitState :=
  { st with cancel_events := trimEvents now (st.cancel_events ++ [now]) }

/-- Rendering of Python's `{:.2%}` format for the reject-rate reason string:
two-decimal percent. Numeric rendering of CPython float formatting is
abstracted by rounding the exact rational to basis points. -/
def fmtPct (q : ℚ) : String :=
  let n : ℤ := round (q * 10000)
  let frac := (n % 100).natAbs
  toString (n / 100) ++ "." ++ (if frac < 10 then "0" else "") ++ toString frac ++ "%"

/-- Translation of `CircuitBreaker.should_halt`: the three trip conditions in
source order, with their reason strings. -/
def shouldHalt (cfg : CircuitConfig) (st : CircuitState) : Bool × String :=
  let denom : ℕ := max 1 st.placed
  let reject_rate : ℚ := (st.rejected : ℚ) / (denom : ℚ)
  if cfg.max_reject_rate ≤ reject_rate ∧ 20 ≤ st.placed then
    (true, "reject_rate=" ++ fmtPct reject_rate ++ " over placed=" ++ toString st.placed)
  else if cfg.max_cancels_per_min < (st.cancel_events.length : ℤ) then
    (true, "cancel_rate=" ++ toString st.cancel_events.length ++ "/min")
  else if cfg.max_errors ≤ st.errors then
    (true, "errors=" ++ toString st.errors)
  else (false, "")

/-- Circuit thresholds of the C8 scenario: `max_reject_rate = 0.30` and the
source's live defaults otherwise. -/
def cbDefaults : CircuitConfig := ⟨3/10, 300, 120, 10⟩

/-- The breaker state after 30 recorded placements of which 12 were
rejections. -/
def cbAfter30 : CircuitState :=
  (List.replicate 18 true ++ List.replicate 12 false).foldl recordPlace CircuitState.init

/-! ## Order lifecycle manager (`src/pmm/execution/order_manager.py`)

The venue adapter (`ExchangeBase`) is modelled by oracles passed to each
operation: `cancelOk : String → Bool` for `exchange.cancel` outcomes by venue
order id, and `place : ℚ → ℚ → PlaceOrderResult` giving the venue's response
to `place_limit` as a function of the guarded price and the size. The `raw`
dict of a result is abstracted to its `action` key, the only key the core
reads. -/

/-- The venue place result (`src/pmm/execution/exchange_base.py`), with `raw`
abstracted to `raw.get("action")`. -/
structure PlaceOrderResult where
  success : Bool
  venue_order_id : Option String
  error : Option String
  raw_action : Option String
  deriving Repr, DecidableEq

/-- In-memory state of one live order. -/
structure LiveOrderState where
  local_order_id : String
  venue_order_id : String
  token_id : String
  side : String
  price : ℚ
  size : ℚ
  created_ts : ℤ
  deriving Repr, DecidableEq

/-- The fields of a `repo.upsert_order` row that the claims mention; the JSON
meta payload is abstracted to its `reason` key. -/
structure OrderRow where
  local_order_id : String
  venue_order_id : Option String
  token_id : String
  side : String
  price : ℚ
  size : ℚ
  status : String
  created_ts : ℤ
  updated_ts : ℤ
  meta_reason : Option String
  deriving Repr, DecidableEq

/-- Mutable state of an `OrderManager` (the DB connection, exchange handle and
RNG are modelled separately). -/
structure OMState where
  run_id : String
  max_orders_per_token : ℤ
  cancel_reprice_sec : ℚ
  post_only : Bool
  tick_size : Option ℚ
  live : List (String × List LiveOrderState)
  deriving Repr

/-- Python's `(self.tick_size or 1e-3)`: `None` and `0.0` are falsy and fall
back to `1e-3`. -/
def tickOr (t : Option ℚ) : ℚ :=
  match t with
  | none => 1/1000
  | some v => if v = 0 then 1/1000 else v

/-- Translation of `OrderManager._price_changed`. -/
def OMState.price_changed (st : OMState) (oldp newp : ℚ) : Bool :=
  match st.tick_size with
  | some tick => |oldp - newp| ≥ tick - 1/10^12
  | none => |oldp - newp| ≥ max (1/10^4) (oldp * (1/10^4))

/-- Translation of `OrderManager._guard_post_only`. Returns `none` where the
source returns `None` (the blocked case). The side is assumed already
upper-cased (the callers upper-case it first). -/
def guardPostOnly (post_only : Bool) (tick_size : Option ℚ) (side : String)
    (price : ℚ) (best_bid best_ask : Option ℚ) : Option ℚ :=
  if post_only = false then some price
  else if side = "BUY" then
    match best_ask with
    | some a =>
        if a ≤ price then
          let adj := a - tickOr tick_size
          if 0 < adj then some adj else none
        else some price
    | none => some price
  else if side = "SELL" then
    match best_bid with
    | some b =>
        if price ≤ b then
          let adj := b + tickOr tick_size
          if adj < 1 then some adj else none
        else some price
    | none => some price
  else some price

/-- Whether a live order is stale at time `now`
(`now - o.created_ts >= self.cancel_reprice_sec`). -/
def staleOrder (sec : ℚ) (now : ℤ) (o : LiveOrderState) : Bool :=
  sec ≤ ((now - o.created_ts : ℤ) : ℚ)

/-- The `upsert_order` row written by `cancel_stale` for one cancelled order. -/
def staleRow (run_id : String) (post_only : Bool) (now : ℤ) (ok : Bool)
    (o : LiveOrderState) : OrderRow :=
  { local_order_id := o.local_order_id
  , venue_order_id := some o.venue_order_id
  , token_id := o.token_id
  , side := o.side
  , price := o.price
  , size := o.size
  , status := if ok then "CANCELED" else "ERROR"
  , created_ts := o.created_ts
  , updated_ts := now
  , meta_reason := some "stale" }

/-- Translation of `OrderManager.cancel_stale`: every live order with
`now - created_ts >= cancel_reprice_sec` is cancelled at the venue and removed
from the live table; the returned count totals only the successful venue
cancels. Returns (new state, count, persisted rows). -/
def OMState.cancel_stale (st : OMState) (now : ℤ) (cancelOk : String → Bool) :
    OMState × ℕ × List OrderRow :=
  let live' := st.live.map (fun e =>
    (e.1, e.2.filter (fun o => !staleOrder st.cancel_reprice_sec now o)))
  let stale := st.live.flatMap (fun e => e.2.filter (staleOrder st.cancel_reprice_sec now))
  let cancels := (stale.filter (fun o => cancelOk o.venue_order_id)).length
  let rows := stale.map (fun o => staleRow st.run_id st.post_only now (cancelOk o.venue_order_id) o)
  ({ st with live := live' }, cancels, rows)

/-- The capacity loop of `place_or_replace`: pop the oldest live order and
cancel it while `len(existing) >= max_orders_per_token`. `mkRow` builds the
`meta={"reason":"cap"}` cancel row for each popped order. -/
def capacityCancel (maxN : ℤ) (mkRow : LiveOrderState → OrderRow) :
    List LiveOrderState → List LiveOrderState × List OrderRow
  | [] => ([], [])
  | o :: rest =>
    if maxN ≤ ((o :: rest).length : ℤ) then
      let r := capacityCancel maxN mkRow rest
      (r.1, mkRow o :: r.2)
    else (o :: rest, [])

/-- The reprice-cancel row written when an existing same-side order is
replaced. -/
def repriceRow (st : OMState) (token_id side : String) (now : ℤ) (ok : Bool)
    (o : LiveOrderState) : OrderRow :=
  { local_order_id := o.local_order_id
  , venue_order_id := some o.venue_order_id
  , token_id := token_id
  , side := side
  , price := o.price
  , size := o.size
  , status := if ok then "CANCELED" else "ERROR"
  , created_ts := o.created_ts
  , updated_ts := now
  , meta_reason := some "reprice" }

/-- The capacity-cancel row (`meta={"reason":"cap"}`). -/
def capRow (st : OMState) (token_id : String) (now : ℤ) (ok : Bool)
    (o : LiveOrderState) : OrderRow :=
  { local_order_id := o.local_order_id
  , venue_order_id := some o.venue_order_id
  , token_id := token_id
  , side := o.side
  , price := o.price
  , size := o.size
  , status := if ok then "CANCELED" else "ERROR"
  , created_ts := o.created_ts
  , updated_ts := now
  , meta_reason := some "cap" }

/-- Python truthiness of `res.venue_order_id`: a string is truthy iff it is
non-empty; `None` is falsy. -/
def venueTruthy (v : Option String) : Bool :=
  match v with
  | none => false
  | some s => s ≠ ""

/-- The live-order list after the replace pass of `place_or_replace`: all
same-side orders whose price changed beyond a tick have been cancelled and
removed. -/
def afterReplace (st : OMState) (side : String) (price : ℚ)
    (existing : List LiveOrderState) : List LiveOrderState :=
  existing.filter (fun o => !(o.side = side && st.price_changed o.price price))

/-- Result triple of `place_or_replace`. -/
structure PlaceOutcome where
  res : PlaceOrderResult
  st : OMState
  rows : List OrderRow
  deriving Repr

/-- Translation of `OrderManager.place_or_replace`. The control flow of the
source is kept: post-only guard (early failure return), replace pass,
capacity pass, venue place, row persistence, and the conditional append to
`live[token]`. -/
def OMState.place_or_replace (st : OMState) (now : ℤ)
    (cancelOk : String → Bool) (place : ℚ → ℚ → PlaceOrderResult)
    (condition_id token_id side0 : String) (price0 size : ℚ)
    (best_bid best_ask : Option ℚ) : PlaceOutcome :=
  let side := pyUpper side0
  match guardPostOnly st.post_only st.tick_size side price0 best_bid best_ask with
  | none =>
      { res := { success := false, venue_order_id := none
               , error := some "post_only_guard_blocked", raw_action := none }
      , st := st, rows := [] }
  | some price =>
    let existing0 := dictGetD st.live token_id []
    let toReplace := existing0.filter (fun o => o.side = side && st.price_changed o.price price)
    let replaceRows := toReplace.map (fun o =>
      repriceRow st token_id side now (cancelOk o.venue_order_id) o)
    let existing1 := afterReplace st side price existing0
    let capped := capacityCancel st.max_orders_per_token
      (fun o => capRow st token_id now (cancelOk o.venue_order_id) o) existing1
    let existing2 := capped.1
    let res := place price size
    let local_order_id :=
      st.run_id.take 8 ++ "-" ++ condition_id.take 6 ++ "-" ++ toString now ++ "-" ++ side
    let status := if res.success then "PLACED" else "REJECTED"
    let placeRow : OrderRow :=
      { local_order_id := local_order_id
      , venue_order_id := res.venue_order_id
      , token_id := token_id
      , side := side
      , price := price
      , size := size
      , status := status
      , created_ts := now
      , updated_ts := now
      , meta_reason := none }
    let existing3 :=
      if res.success && venueTruthy res.venue_order_id then
        existing2 ++ [{ local_order_id := local_order_id
                      , venue_order_id := res.venue_order_id.getD ""
                      , token_id := token_id
                      , side := side
                      , price := price
                      , size := size
                      , created_ts := now : LiveOrderState }]
      else existing2
    { res := res
    , st := { st with live := dictSet st.live token_id existing3 }
    , rows := replaceRows ++ capped.2 ++ [placeRow] }

/-! ## Control-loop glue (`src/pmm/cli.py`) -/

/-- The stale-cancel step of the control loop (cli.py lines 396-398):
`cancels = om.cancel_stale(); if cancels: cb.record_cancel()`. Note a single
breaker event is recorded per token per tick, however many orders were
cancelled. -/
def staleCancelStep (st : OMState) (cb : CircuitState) (now : ℤ)
    (cancelOk : String → Bool) : OMState × CircuitState × ℕ :=
  let r := st.cancel_stale now cancelOk
  (r.1, if r.2.1 ≠ 0 then recordCancel cb now else cb, r.2.1)

/-- The breaker-counting step after each `place_or_replace` in the control
loop: `record_place` is called unless `res.raw["action"] == "SKIP"`. -/
def loopCountPlace (cb : CircuitState) (res : PlaceOrderResult) : CircuitState :=
  if res.raw_action = some "SKIP" then cb else recordPlace cb res.success

/-- Order-manager state of the C3 counterexample: one token with two live
orders, both stale at time 100 for `cancel_reprice_sec = 5`. -/
def omStale : OMState :=
  { run_id := "r", max_orders_per_token := 5, cancel_reprice_sec := 5
  , post_only := false, tick_size := none
  , live := [("t", [⟨"l1", "v1", "t", "BUY", 1, 10, 0⟩, ⟨"l2", "v2", "t", "SELL", 1, 10, 0⟩])] }

/-- Order-manager state with post-only enabled and tick `0.01`, used by the
C7 witness. -/
def omPost : OMState :=
  { run_id := "r", max_orders_per_token := 5, cancel_reprice_sec := 5
  , post_only := true, tick_size := some (1/100), live := [] }

/-- Modelled from the spec: `PaperExchange.place_limit` (the file
`src/pmm/execution/paper_exchange.py` is imported by `cli.py` but is not
present under `src/`). Per the spec's SKIP semantics, a place call for an
order identical (same side, within a tick, same size) to an existing live
order returns `success=true` with `raw.action = "SKIP"` and no venue order
id, so that `place_or_replace` appends nothing to `live[token]` and the
control loop does not count the call toward `placed`. -/
def skipPlaceResult : PlaceOrderResult :=
  { success := true, venue_order_id := none, error := none, raw_action := some "SKIP" }

/-- A plain order-manager state with no live orders, used by the C10
counterexample and witness. -/
def omBase : OMState :=
  { run_id := "r", max_orders_per_token := 5, cancel_reprice_sec := 5
  , post_only := false, tick_size := none, live := [] }

/-- Order-manager state of the C1 witness: one live BUY at `0.5`, size 10. -/
def omSkip : OMState :=
  { run_id := "r", max_orders_per_token := 5, cancel_reprice_sec := 5
  , post_only := false, tick_size := some (1/100)
  , live := [("t", [⟨"l1", "v1", "t", "BUY", 1/2, 10, 0⟩])] }

/-! ## Paper fill simulator (`OrderManager.simulate_fills` plus `_seed_from_run_id`)

The PRNG `random.Random(seed)` is modelled as a deterministic stream: a state
`(seed, idx)` advanced by one on each method call, with the drawn values given
by arbitrary functions of `(seed, idx)` (section variables `draw`,
`gaussDraw`, `betaDraw`). This captures exactly the property the source
relies on: a seeded `random.Random` is a deterministic function of its seed
and the sequence of method calls. `math.exp` is likewise a section variable
`rexp`. `uuid.uuid4()`, the one genuinely nondeterministic input, is modelled
as an external source `uuidGen : ℕ → String` consumed in order. -/

/-- Hex-digit test for UUID parsing. -/
def isHexDig (c : Char) : Bool :=
  c.isDigit || ('a' ≤ c && c ≤ 'f') || ('A' ≤ c && c ≤ 'F')

/-- Value of a hex digit. -/
def hexVal (c : Char) : ℕ :=
  if c.isDigit then c.toNat - 48
  else if 'a' ≤ c && c ≤ 'f' then c.toNat - 87
  else c.toNat - 55

/-- The 128-bit integer of a UUID string: CPython's `uuid.UUID(s)` removes
dashes and requires 32 hex digits. (The `urn:uuid:` and brace-wrapped
variants CPython also accepts are not modelled.) -/
def uuidIntOf (s : String) : Option ℕ :=
  let hx := s.toList.filter (fun c => c ≠ '-')
  if hx.length = 32 ∧ hx.all isHexDig then
    some (hx.foldl (fun acc c => acc * 16 + hexVal c) 0)
  else none

/-- The fallback hash of `_seed_from_run_id`:
`sum((i + 1) * ord(ch) for i, ch in enumerate(s))`. -/
def fallbackSeedSum (s : String) : ℕ :=
  s.toList.enum.foldl (fun acc p => acc + (p.1 + 1) * p.2.toNat) 0

/-- Translation of `OrderManager._seed_from_run_id`: the UUID's integer when
the run id parses as a UUID, else the positional character sum of
`run_id or "pmm"`; in both branches masked to the lower 32 bits. -/
def seedFromRunId (run_id : String) : ℕ :=
  match uuidIntOf run_id with
  | some n => n % 2^32
  | none =>
      let s := if run_id = "" then "pmm" else run_id
      fallbackSeedSum s % 2^32

/-- PRNG state: the seed fixed at construction and a consumption index. -/
structure RNG where
  seed : ℕ
  idx : ℕ
  deriving Repr, DecidableEq

/-- Simulator configuration: the environment options read by
`simulate_fills`, plus the exchange's `is_paper` flag. -/
structure SimCfg where
  is_paper : Bool
  sim_enabled : Bool
  fill_intensity : ℚ
  spread_mode : String
  spread_k : ℚ
  markout_sigma_bps : ℚ
  allow_partial : Bool
  full_fill_prob : ℚ
  beta_a : ℚ
  beta_b : ℚ
  partial_min_frac : ℚ
  partial_max_frac : ℚ
  deriving Repr

/-- Aggregate per-tick fill statistics returned by `simulate_fills`. -/
structure SimFillStats where
  fills : ℕ
  markout_sum : ℚ
  realized_spread_sum : ℚ
  deriving Repr, DecidableEq

/-- A trade row as inserted by `repo.insert_trade` (JSON payload omitted). -/
structure TradeRow where
  trade_id : String
  venue_order_id : String
  token_id : String
  side : String
  price : ℚ
  size : ℚ
  status : String
  ts : ℤ
  deriving Repr, DecidableEq

/-- The fill event computed for one live order, before emission. -/
structure FillEvent where
  fill_size : ℚ
  status : String
  price : ℚ
  markout : ℚ
  realized_spread_x : ℚ
  new_remaining : ℚ
  o : LiveOrderState
  deriving Repr

/-- Per-step inputs of `simulate_fills`. -/
structure SimIn where
  condition_id : String
  token_id : String
  midpoint : Option ℚ
  best_bid : Option ℚ
  best_ask : Option ℚ
  dt_sec : ℚ
  ts : ℤ
  intensity_override : Option ℚ
  deriving Repr

/-- Simulator-facing state of the order manager: live tables, PRNG, and the
count of UUIDs consumed so far. -/
structure SimState where
  live : List (String × List LiveOrderState)
  rng : RNG
  uuidn : ℕ
  deriving Repr

section Simulator

variable (draw : ℕ → ℕ → ℚ)
variable (gaussDraw : ℕ → ℕ → ℚ → ℚ)
variable (betaDraw : ℕ → ℕ → ℚ → ℚ → ℚ)
variable (rexp : ℚ → ℚ)

/-- The body of the per-order loop of `simulate_fills`: competitiveness by
tick distance to same-side best, edge decay from mid, spread penalty in
`factor` mode, thinned Poisson fill draw, markout draw, and partial/full
sizing. Returns (order kept in `live`, fill event, advanced PRNG). -/
def simOrder (cfg : SimCfg) (tick : ℚ) (mid bb ba : Option ℚ) (base_p : ℚ)
    (rng : RNG) (o : LiveOrderState) :
    Option LiveOrderState × Option FillEvent × RNG :=
  let side := pyUpper o.side
  let px := o.price
  let remaining := o.size
  if remaining ≤ 1/10^9 then (none, none, rng)
  else
    let d_ticks : ℚ :=
      if side = "BUY" ∧ bb.isSome then |px - bb.getD 0| / max (1/10^9) tick
      else if side = "SELL" ∧ ba.isSome then |px - ba.getD 0| / max (1/10^9) tick
      else 9 * 10^9
    let competitive : ℚ :=
      if d_ticks ≤ 1/2 then 1
      else if d_ticks ≤ 3/2 then 3/5
      else if d_ticks ≤ 5/2 then 7/20
      else if d_ticks ≤ 9/2 then 11/50
      else 3/20
    let edge_factor : ℚ :=
      match mid with
      | some m => if 1/10^9 < m then 1 / (1 + (|px - m| / m * 10000) / 80) else 1
      | none => 1
    let spread_factor : ℚ :=
      match bb, ba with
      | some b, some a =>
          let sticks := max 0 ((a - b) / max (1/10^9) tick)
          if cfg.spread_mode = "factor" then 1 / (1 + cfg.spread_k * max 0 (sticks - 1))
          else 1
      | _, _ => 1
    let p_fill := max 0 (min (19/20) (base_p * competitive * edge_factor * spread_factor))
    let u := draw rng.seed rng.idx
    let rng1 : RNG := ⟨rng.seed, rng.idx + 1⟩
    if p_fill ≤ u then (some o, none, rng1)
    else
      let eps := gaussDraw rng1.seed rng1.idx (cfg.markout_sigma_bps / 10000)
      let rng2 : RNG := ⟨rng1.seed, rng1.idx + 1⟩
      let future_mid := mid.map (fun m => max (1/1000) (min (999/1000) (m * (1 + eps))))
      let realized_spread : ℚ :=
        match mid with
        | some m => if side = "BUY" then m - px else px - m
        | none => 0
      let fr : ℚ × RNG :=
        if cfg.allow_partial = false then (1, rng2)
        else
          let v := draw rng2.seed rng2.idx
          let rng3 : RNG := ⟨rng2.seed, rng2.idx + 1⟩
          if v < cfg.full_fill_prob then (1, rng3)
          else
            let raw := betaDraw rng3.seed rng3.idx (max (1/10) cfg.beta_a) (max (1/10) cfg.beta_b)
            let rng4 : RNG := ⟨rng3.seed, rng3.idx + 1⟩
            (cfg.partial_min_frac + (cfg.partial_max_frac - cfg.partial_min_frac) * raw, rng4)
      let frac := fr.1
      let rng5 := fr.2
      let fill_size := min (max (1/10^6) (remaining * frac)) remaining
      let new_remaining := remaining - fill_size
      let status := if new_remaining ≤ 1/10^9 then "FILLED" else "PARTIAL"
      let markout : ℚ :=
        match future_mid with
        | some fm => if side = "BUY" then (fm - px) * fill_size else (px - fm) * fill_size
        | none => 0
      let ev : FillEvent :=
        ⟨fill_size, status, px, markout, realized_spread * fill_size, new_remaining, o⟩
      if status = "PARTIAL" then (some { o with size := new_remaining }, some ev, rng5)
      else (none, some ev, rng5)

/-- The loop of `simulate_fills` over the live orders of one token: threads
the PRNG and the UUID counter, accumulates kept orders, statistics and trade
rows in source order. -/
def simLoop (cfg : SimCfg) (tick base_p : ℚ) (mid bb ba : Option ℚ)
    (tok : String) (now : ℤ) (uuidGen : ℕ → String) :
    List LiveOrderState → RNG → ℕ →
    List LiveOrderState × RNG × ℕ × SimFillStats × List TradeRow
  | [], rng, n => ([], rng, n, ⟨0, 0, 0⟩, [])
  | o :: rest, rng, n =>
    let step := simOrder draw gaussDraw betaDraw cfg tick mid bb ba base_p rng o
    match step.2.1 with
    | none =>
        let r := simLoop cfg tick base_p mid bb ba tok now uuidGen rest step.2.2 n
        (step.1.toList ++ r.1, r.2.1, r.2.2.1, r.2.2.2.1, r.2.2.2.2)
    | some ev =>
        let trade : TradeRow :=
          { trade_id := "paper-" ++ uuidGen n
          , venue_order_id := ev.o.venue_order_id
          , token_id := tok
          , side := pyUpper ev.o.side
          , price := ev.price
          , size := ev.fill_size
          , status := ev.status
          , ts := now }
        let r := simLoop cfg tick base_p mid bb ba tok now uuidGen rest step.2.2 (n + 1)
        (step.1.toList ++ r.1, r.2.1, r.2.2.1,
         ⟨r.2.2.2.1.fills + 1, r.2.2.2.1.markout_sum + ev.markout,
          r.2.2.2.1.realized_spread_sum + ev.realized_spread_x⟩,
         trade :: r.2.2.2.2)

/-- Translation of `OrderManager.simulate_fills` for one tick: the early
returns (not paper, simulation disabled, no live orders), the Poisson base
probability `1 - exp(-max(0, intensity) * dt)`, and the per-order loop. -/
def simulateFills (cfg : SimCfg) (tick_size : Option ℚ) (uuidGen : ℕ → String)
    (inp : SimIn) (s : SimState) : SimState × SimFillStats × List TradeRow :=
  if cfg.is_paper = false then (s, ⟨0, 0, 0⟩, [])
  else if cfg.sim_enabled = false then (s, ⟨0, 0, 0⟩, [])
  else
    let lst := dictGetD s.live inp.token_id []
    if lst = [] then (s, ⟨0, 0, 0⟩, [])
    else
      let tick := tickOr tick_size
      let dt := max (1/10) inp.dt_sec
      let intensity := inp.intensity_override.getD cfg.fill_intensity
      let base_p := 1 - rexp (-(max 0 intensity) * dt)
      let r := simLoop draw gaussDraw betaDraw cfg tick base_p inp.midpoint
        inp.best_bid inp.best_ask inp.token_id inp.ts uuidGen lst s.rng s.uuidn
      ({ live := dictSet s.live inp.token_id r.1, rng := r.2.1, uuidn := r.2.2.1 },
       r.2.2.2.1, r.2.2.2.2)

/-- A paper run over a sequence of per-step inputs from a given simulator
state, accumulating the emitted trade rows in order. -/
def runSimFrom (cfg : SimCfg) (tick_size : Option ℚ) (uuidGen : ℕ → String) :
    List SimIn → SimState → SimState × List TradeRow
  | [], s => (s, [])
  | i :: rest, s =>
    let r1 := simulateFills draw gaussDraw betaDraw rexp cfg tick_size uuidGen i s
    let r2 := runSimFrom cfg tick_size uuidGen rest r1.1
    (r2.1, r1.2.2 ++ r2.2)

/-- A full paper run: the PRNG seeded from the run identifier, the UUID
source fresh, the live tables as given. -/
def runSim (cfg : SimCfg) (tick_size : Option ℚ) (uuidGen : ℕ → String)
    (run_id : String) (live0 : List (String × List LiveOrderState))
    (steps : List SimIn) : SimState × List TradeRow :=
  runSimFrom draw gaussDraw betaDraw rexp cfg tick_size uuidGen steps
    ⟨live0, ⟨seedFromRunId run_id, 0⟩, 0⟩

/-- The observable outcome of a trade row for the determinism claim:
`(fill_size, status, price)`. -/
def outcomesOf (trades : List TradeRow) : List (ℚ × String × ℚ) :=
  trades.map (fun t => (t.size, t.status, t.price))

end Simulator

/-! ## Capital allocator (`src/pmm/strategy/allocator.py`)

The weight formula uses `math.exp` and float `**`, so this component is
modelled over `ℝ` with `Real.exp` and `Real.rpow`; branch conditions use the
classical order on `ℝ`. -/

/-- Allocator inputs per market. -/
structure MarketFeatures where
  condition_id : String
  liquidity_num : ℝ
  fills : ℤ
  quotes : ℤ
  markout_sum : ℝ
  realized_spread_sum : ℝ

/-- Allocator configuration. -/
structure CapitalAllocator where
  total_budget_usd : ℝ
  min_per_market : ℝ
  max_per_market : ℝ
  liquidity_power : ℝ
  quality_k : ℝ

/-- The per-market weight of `CapitalAllocator.allocate`:
`liquidity^p` times the clipped quality term. -/
noncomputable def weightOf (A : CapitalAllocator) (f : MarketFeatures) : ℝ :=
  let liq := max (1/1000000000) f.liquidity_num
  let base := liq ^ A.liquidity_power
  let fill_rate : ℝ := (f.fills : ℝ) / ((max 1 f.quotes : ℤ) : ℝ)
  let avg_markout := f.markout_sum / ((max 1 f.fills : ℤ) : ℝ)
  let adverse := max 0 (-avg_markout)
  let quality := Real.exp (-A.quality_k * adverse) * (1/2 + 1/2 * min 1 (fill_rate * 20))
  base * max (1/20) (min (3/2) quality)

/-- Translation of `CapitalAllocator.allocate`: proportional allocation, a
min-pinning pass, proportional re-allocation of the remainder over the free
set, a max-clipping pass with equal redistribution of the overflow over the
non-overflowing markets, and the final merge of the pinned minimums. The
returned association list is keyed by `condition_id` in feature order
(CPython dict insertion order, condition ids assumed distinct). -/
noncomputable def allocate (A : CapitalAllocator) (feats : List MarketFeatures) :
    List (String × ℝ) :=
  if feats.isEmpty then []
  else
    let w_raw0 := feats.map (weightOf A)
    let s0 := w_raw0.sum
    let w_raw := if s0 ≤ 0 then feats.map (fun _ => (1:ℝ)) else w_raw0
    let s := if s0 ≤ 0 then (feats.length : ℝ) else s0
    let alloc1 := w_raw.map (fun wi => A.total_budget_usd * (wi / s))
    let pinned := alloc1.map (fun a => if a < A.min_per_market then true else false)
    let nPinned := pinned.count true
    let remaining := A.total_budget_usd - A.min_per_market * (nPinned : ℝ)
    if remaining ≤ 0 then
      (feats.zip pinned).filterMap (fun p =>
        if p.2 then some (p.1.condition_id, min A.max_per_market A.min_per_market) else none)
    else
      let s2 := ((w_raw.zip pinned).filterMap (fun p => if p.2 then none else some p.1)).sum
      let alloc2 := ((w_raw.zip alloc1).zip pinned).map
        (fun p => if p.2 then p.1.2 else remaining * (p.1.1 / max (1/1000000000000) s2))
      let clipped := alloc2.map (fun v => if A.max_per_market < v then A.max_per_market else v)
      let overflow := (alloc2.map (fun v => max 0 (v - A.max_per_market))).sum
      let nUnder := (alloc2.map (fun v => if A.max_per_market < v then false else true)).count true
      let withAdd :=
        if 0 < overflow ∧ 0 < nUnder then
          (alloc2.zip clipped).map (fun p =>
            if A.max_per_market < p.1 then p.2
            else min A.max_per_market (p.2 + overflow / (nUnder : ℝ)))
        else clipped
      (feats.zip (withAdd.zip pinned)).map (fun p =>
        (p.1.condition_id, if p.2.2 then A.min_per_market else p.2.1))

/-- Allocator configuration of the C4 counterexample: budget 100, per-market
range `[5, 60]`, liquidity power 1 and quality penalty 0 (so the weight
formula's `rpow` and `exp` evaluate in closed form). -/
noncomputable def allocCfg0 : CapitalAllocator :=
  { total_budget_usd := 100, min_per_market := 5, max_per_market := 60
  , liquidity_power := 1, quality_k := 0 }

/-- First market of the C4 counterexample: negligible liquidity weight. -/
noncomputable def feat1 : MarketFeatures :=
  { condition_id := "m1", liquidity_num := 1, fills := 0, quotes := 0
  , markout_sum := 0, realized_spread_sum := 0 }

/-- Second market of the C4 witness: dominant liquidity weight. -/
noncomputable def feat2 : MarketFeatures :=
  { condition_id := "m2", liquidity_num := 1000, fills := 0, quotes := 0
  , markout_sum := 0, realized_spread_sum := 0 }

/-- A low-liquidity market of the C4 counterexample (liquidity 18, weight 9):
its first-pass allocation falls below the per-market minimum and is pinned. -/
noncomputable def featPin (name : String) : MarketFeatures :=
  { condition_id := name, liquidity_num := 18, fills := 0, quotes := 0
  , markout_sum := 0, realized_spread_sum := 0 }

/-- The middle market of the C4 counterexample (liquidity 20, weight 10):
free after the min pass, but re-allocation pushes it below the minimum. -/
noncomputable def featMid : MarketFeatures :=
  { condition_id := "q", liquidity_num := 20, fills := 0, quotes := 0
  , markout_sum := 0, realized_spread_sum := 0 }

/-- The dominant market of the C4 counterexample (liquidity 250, weight 125):
re-allocation sends it above the per-market maximum, so it is clipped. -/
noncomputable def featBig : MarketFeatures :=
  { condition_id := "r", liquidity_num := 250, fills := 0, quotes := 0
  , markout_sum := 0, realized_spread_sum := 0 }

/-- The nine-market feature list of the C4 counterexample: seven pinned
markets, one re-allocated below the minimum, one clipped at the maximum. -/
noncomputable def feats9 : List MarketFeatures :=
  [featPin "p1", featPin "p2", featPin "p3", featPin "p4", featPin "p5", featPin "p6",
   featPin "p7", featMid, featBig]

/-! ## Helper lemmas -/

/-- Lookup after an insertion-order-preserving update. -/
theorem dictGetD_dictSet {α : Type} (d : List (String × α)) (k : String) (v : α) (dfl : α) :
    dictGetD (dictSet d k v) k dfl = v := by
  induction d with
  | nil => simp [dictSet, dictGetD]
  | cons e rest ih =>
    by_cases h : e.1 = k
    · simp [dictSet, dictGetD, h]
    · simp [dictSet, dictGetD, h, ih]

/-- Lookup commutes with a value-wise map of an association list, provided the
default is mapped as well. -/
theorem dictGetD_map {α β : Type} (f : α → β) (d : List (String × α)) (k : String) (dfl : α) :
    dictGetD (d.map (fun e => (e.1, f e.2))) k (f dfl) = f (dictGetD d k dfl) := by
  induction d with
  | nil => simp [dictGetD]
  | cons e rest ih =>
    by_cases h : e.1 = k
    · simp [dictGetD, h]
    · simp [dictGetD, h, ih]

/-- Trimming is a no-op on a deque whose entries are all within the window. -/
theorem trimEvents_noop (now : ℤ) (evs : List ℤ) (h : ∀ t ∈ evs, now - t ≤ 60) :
    trimEvents now evs = evs := by
  induction evs with
  | nil => rfl
  | cons t rest ih =>
    have ht : now - t ≤ 60 := h t (List.mem_cons_self t rest)
    simp only [trimEvents, if_neg (not_lt.mpr ht)]

/-! ## Claim C2 -/

/-- C2 counterexample: at midpoint `1/2`, spread `100` bps the quoter's bid is
`0.4975` (offset half of `m·s/10000`), while the claim's formula
`bid = clamp(m − m·s/10000, …)` gives `0.495`; the two differ. -/
theorem C2_counterexample :
    ((SymmetricSpreadMM.mk 100 20 1).quotes (1/2)).map Quote.price = [199/400, 201/400]
    ∧ claimBidPrice (1/2) 100 = 99/200
    ∧ (199/400 : ℚ) ≠ 99/200 := by
  refine ⟨?_, ?_, by norm_num⟩
  · simp [SymmetricSpreadMM.quotes, clamp]
    norm_num
  · simp [claimBidPrice, clamp]
    norm_num

/-- C2 amended: for every midpoint `m ∈ (0,1)` and spread `s > 0` the quoter
returns exactly `[{BUY, bid, bid_size}, {SELL, ask, ask_size}]` with
`half = (m·s/10000)/2` (amendment: half of the claim's offset),
`bid = clamp(m − half, 0.001, 0.999)`, `ask = clamp(m + half, …)` and sizes
`max(1, u / max(0.01, price))` for the per-side budget
`u = (max_usd/2)·alpha_scale`. -/
theorem C2_amended_quotes (q : SymmetricSpreadMM) (m : ℚ)
    (h0 : 0 < m) (h1 : m < 1) (hs : 0 < q.target_spread_bps) :
    q.quotes m =
      [⟨"BUY", specBidPrice m q.target_spread_bps,
        specQuoteSize ((q.max_usd / 2) * q.alpha_scale) (specBidPrice m q.target_spread_bps)⟩,
       ⟨"SELL", specAskPrice m q.target_spread_bps,
        specQuoteSize ((q.max_usd / 2) * q.alpha_scale) (specAskPrice m q.target_spread_bps)⟩] := by
  simp only [SymmetricSpreadMM.quotes, specBidPrice, specAskPrice, specQuoteSize]

/-- C2 amended witness at `m = 1/2`, `s = 100`, `max_usd = 20`, scale 1. -/
theorem C2_amended_witness :
    (0:ℚ) < 1/2 ∧ (1/2:ℚ) < 1 ∧ (0:ℚ) < 100 ∧
    (SymmetricSpreadMM.mk 100 20 1).quotes (1/2) =
      [⟨"BUY", specBidPrice (1/2) 100, specQuoteSize ((20/2) * 1) (specBidPrice (1/2) 100)⟩,
       ⟨"SELL", specAskPrice (1/2) 100, specQuoteSize ((20/2) * 1) (specAskPrice (1/2) 100)⟩] :=
  ⟨by norm_num, by norm_num, by norm_num,
   C2_amended_quotes (SymmetricSpreadMM.mk 100 20 1) (1/2)
     (by norm_num) (by norm_num) (by norm_num)⟩

/-! ## Claim C5 -/

/-- C5 counterexample: with `quotes = 0` the calibrator returns the prior
unchanged, so a prior `target_spread_bps = 1000` escapes the claimed bound
`target_spread_bps ≤ 500`. -/
theorem C5_counterexample :
    (nextParams { alpha := 1, target_spread_bps := 1000, max_usd := 10
                , quote_refresh_sec := 3, cancel_reprice_sec := 20
                , state := ⟨0, 0, 0, 0⟩ }).target_spread_bps = 1000
    ∧ ¬ ((1000:ℚ) ≤ 500) := by
  constructor
  · rfl
  · norm_num

/-- C5 amended: for every input with at least one observed quote (and a
positive prior spread, so the Python ratio is defined), the calibrator's
output satisfies `20 ≤ target_spread_bps ≤ 500`, `1 ≤ quote_refresh_sec ≤ 10`
and `5 ≤ cancel_reprice_sec ≤ 60`. -/
theorem C5_amended_bounds (prev : MarketCalibParams)
    (hq : 1 ≤ prev.state.quotes) (hs : 0 < prev.target_spread_bps) :
    (20 ≤ (nextParams prev).target_spread_bps ∧ (nextParams prev).target_spread_bps ≤ 500)
    ∧ (1 ≤ (nextParams prev).quote_refresh_sec ∧ (nextParams prev).quote_refresh_sec ≤ 10)
    ∧ (5 ≤ (nextParams prev).cancel_reprice_sec ∧ (nextParams prev).cancel_reprice_sec ≤ 60) := by
  have hq' : ¬ prev.state.quotes ≤ 0 := by omega
  simp only [nextParams, if_neg hq']
  refine ⟨⟨le_max_left _ _, max_le (by norm_num) (min_le_right _ _)⟩,
          ⟨le_min (by norm_num) (le_max_left _ _), min_le_left _ _⟩,
          ⟨le_min (by norm_num) (le_max_left _ _), min_le_left _ _⟩⟩

/-- C5 amended witness: a concrete widening step stays inside all bounds. -/
theorem C5_amended_witness :
    (1:ℤ) ≤ 100 ∧ (0:ℚ) < 60 ∧
    (20 ≤ (nextParams calibTrip).target_spread_bps ∧ (nextParams calibTrip).target_spread_bps ≤ 500)
    ∧ (1 ≤ (nextParams calibTrip).quote_refresh_sec ∧ (nextParams calibTrip).quote_refresh_sec ≤ 10)
    ∧ (5 ≤ (nextParams calibTrip).cancel_reprice_sec ∧ (nextParams calibTrip).cancel_reprice_sec ≤ 60) :=
  ⟨by norm_num, by norm_num, C5_amended_bounds calibTrip (by decide) (by decide)⟩

/-! ## Claim C6 -/

/-- Evaluation of `pyUpper` on the BUY literal. -/
theorem pyUpperBUY : pyUpper "BUY" = "BUY" := by decide

/-- Evaluation of `pyUpper` on the SELL literal. -/
theorem pyUpperSELL : pyUpper "SELL" = "SELL" := by decide

/-- Positions of tokens other than the filled one are untouched. -/
theorem apply_fill_pos_other (inv : InventoryEngine) (token side : String)
    (price size fee : ℚ) (t : String) (ht : t ≠ token) :
    (inv.apply_fill token side price size fee).pos t = inv.pos t := by
  simp only [InventoryEngine.apply_fill]
  split <;> simp [ht]

/-- The position written by a BUY fill. -/
theorem apply_fill_pos_buy (inv : InventoryEngine) (token side : String)
    (price size fee : ℚ) (hb : pyUpper side = "BUY") :
    (inv.apply_fill token side price size fee).pos token =
      { qty := (inv.pos token).qty + size
      , avg_cost :=
          if (1:ℚ)/10^12 < (inv.pos token).qty + size then
            ((inv.pos token).avg_cost * (inv.pos token).qty + price * size)
              / ((inv.pos token).qty + size)
          else (inv.pos token).avg_cost
      , realized := (inv.pos token).realized } := by
  simp only [InventoryEngine.apply_fill, hb]
  simp

/-- The position written by a SELL fill. -/
theorem apply_fill_pos_sell (inv : InventoryEngine) (token side : String)
    (price size fee : ℚ) (hb : pyUpper side = "SELL") :
    (inv.apply_fill token side price size fee).pos token =
      (if (inv.pos token).qty - min size (inv.pos token).qty ≤ (1:ℚ)/10^12 then
        { qty := 0, avg_cost := 0
        , realized := (inv.pos token).realized
            + (price - (inv.pos token).avg_cost) * min size (inv.pos token).qty }
      else
        { qty := (inv.pos token).qty - min size (inv.pos token).qty
        , avg_cost := (inv.pos token).avg_cost
        , realized := (inv.pos token).realized
            + (price - (inv.pos token).avg_cost) * min size (inv.pos token).qty }) := by
  have hne : ¬ (("SELL" : String) = "BUY") := by decide
  simp only [InventoryEngine.apply_fill, hb, if_neg hne]
  simp

/-- One `apply_fill` preserves the per-position invariant, provided the fill\'s
size is zero or above the `1e-12` dust threshold. -/
theorem apply_fill_preserves (inv : InventoryEngine) (hinv : ∀ t, PosOk (inv.pos t))
    (f : Fill) (hf : FillOk f) :
    ∀ t, PosOk ((inv.apply_fill f.token_id f.side f.price f.size f.fee).pos t) := by
  obtain ⟨hside, hp0, hp1, hsz, _hfee⟩ := hf
  have hs0 : 0 ≤ f.size := by
    rcases hsz with h | h
    · exact le_of_eq h.symm
    · exact le_of_lt (lt_trans (by norm_num) h)
  intro t0
  by_cases ht : t0 = f.token_id
  · rw [ht]
    set t := f.token_id with htk
    obtain ⟨h1, h2, h3, h4⟩ := hinv t
    rcases hside with hb | hb
    · -- BUY
      rw [apply_fill_pos_buy inv t f.side f.price f.size f.fee (by rw [hb]; exact pyUpperBUY)]
      rcases hsz with h0 | hpos
      · -- size = 0
        rcases h2 with hq0 | hqb
        · have hc : ¬ ((1:ℚ)/10^12 < (inv.pos t).qty) := by
            rw [hq0]; norm_num
          simp only [h0, add_zero, if_neg hc]
          exact ⟨h1, Or.inl hq0, h3, h4⟩
        · have hqne : (inv.pos t).qty ≠ 0 := by
            intro h; rw [h] at hqb; norm_num at hqb
          have havg : (inv.pos t).avg_cost * (inv.pos t).qty / (inv.pos t).qty
              = (inv.pos t).avg_cost := by
            field_simp
          simp only [h0, mul_zero, add_zero, if_pos hqb, havg]
          exact ⟨h1, Or.inr hqb, h3, h4⟩
      · -- size above the dust threshold
        have hszpos : 0 < f.size := lt_trans (by norm_num) hpos
        have hc : (1:ℚ)/10^12 < (inv.pos t).qty + f.size := by nlinarith
        have hnum : 0 < (inv.pos t).avg_cost * (inv.pos t).qty + f.price * f.size := by
          have hnn : 0 ≤ (inv.pos t).avg_cost * (inv.pos t).qty := mul_nonneg h4 h1
          nlinarith
        have hden : 0 < (inv.pos t).qty + f.size := by nlinarith
        have havgpos : 0 < ((inv.pos t).avg_cost * (inv.pos t).qty + f.price * f.size)
            / ((inv.pos t).qty + f.size) := div_pos hnum hden
        refine ⟨by nlinarith, Or.inr hc, ?_, ?_⟩
        · simp only [if_pos hc]
          constructor
          · intro h; exact absurd h (ne_of_gt havgpos)
          · intro h; exfalso; nlinarith
        · simp only [if_pos hc]
          exact le_of_lt havgpos
    · -- SELL
      rw [apply_fill_pos_sell inv t f.side f.price f.size f.fee (by rw [hb]; exact pyUpperSELL)]
      by_cases hq : (inv.pos t).qty - min f.size (inv.pos t).qty ≤ (1:ℚ)/10^12
      · rw [if_pos hq]
        exact ⟨le_refl 0, Or.inl rfl, by simp, le_refl 0⟩
      · rw [if_neg hq]
        push_neg at hq
        have hq1 : (0:ℚ) < (inv.pos t).qty - min f.size (inv.pos t).qty :=
          lt_trans (by norm_num) hq
        have hqpos : 0 < (inv.pos t).qty := by
          have hmin : 0 ≤ min f.size (inv.pos t).qty := le_min hs0 h1
          nlinarith
        refine ⟨le_of_lt hq1, Or.inr (by simpa using hq), ?_, h4⟩
        constructor
        · intro h; exact absurd (h3.mp h) (ne_of_gt hqpos)
        · intro h; exact absurd h (ne_of_gt hq1)
  · rw [apply_fill_pos_other inv f.token_id f.side f.price f.size f.fee t0 ht]
    exact hinv t0

/-- Folding a list of admissible fills preserves the invariant. -/
theorem applyFills_preserves (fills : List Fill) :
    ∀ (inv : InventoryEngine), (∀ f ∈ fills, FillOk f) → (∀ t, PosOk (inv.pos t)) →
      ∀ t, PosOk ((applyFills fills inv).pos t) := by
  induction fills with
  | nil => intro inv _ hinv t; exact hinv t
  | cons f rest ih =>
    intro inv hok hinv t
    have h1 : FillOk f := hok f (List.mem_cons_self f rest)
    have h2 : ∀ g ∈ rest, FillOk g := fun g hg => hok g (List.mem_cons_of_mem f hg)
    simp only [applyFills, List.foldl_cons]
    exact ih _ h2 (apply_fill_preserves inv hinv f h1) t

/-- C6 counterexample: a single BUY of dust size `1e-13` at price `1/2` from
the empty inventory leaves `qty = 1e-13 > 0` while `avg_cost = 0`, refuting
`avg_cost = 0 ↔ qty = 0` for arbitrary non-negative sizes. -/
theorem C6_counterexample :
    ¬ (((applyFills [⟨"t", "BUY", 1/2, 1/10^13, 0⟩] (emptyInv 1000)).pos "t").avg_cost = 0
        ↔ ((applyFills [⟨"t", "BUY", 1/2, 1/10^13, 0⟩] (emptyInv 1000)).pos "t").qty = 0) := by
  have h := apply_fill_pos_buy (emptyInv 1000) "t" "BUY" (1/2) (1/10^13) 0 pyUpperBUY
  simp only [applyFills, List.foldl_cons, List.foldl_nil]
  rw [h]
  simp only [emptyInv, Position.init]
  norm_num

/-- C6 amended: starting from the empty inventory, after any sequence of BUY
or SELL fills with prices in `(0,1)`, non-negative fees, and sizes that are
zero or above the `1e-12` dust threshold (amendment: the threshold excludes
the dust counterexample), every per-token position satisfies `qty ≥ 0` and
`avg_cost = 0 ↔ qty = 0`. -/
theorem C6_amended_invariant (fills : List Fill) (hok : ∀ f ∈ fills, FillOk f)
    (cash : ℚ) (tok : String) :
    0 ≤ ((applyFills fills (emptyInv cash)).pos tok).qty
    ∧ (((applyFills fills (emptyInv cash)).pos tok).avg_cost = 0
        ↔ ((applyFills fills (emptyInv cash)).pos tok).qty = 0) := by
  have hinv : ∀ t, PosOk ((emptyInv cash).pos t) := by
    intro t
    exact ⟨le_refl 0, Or.inl rfl, by simp [emptyInv, Position.init], le_refl 0⟩
  have h := applyFills_preserves fills (emptyInv cash) hok hinv tok
  exact ⟨h.1, h.2.2.1⟩

/-- Admissibility of the spec scenario fills used in the C6 witness. -/
theorem fillsOkSpec :
    ∀ f ∈ [(⟨"t", "BUY", 2/5, 10, 0⟩ : Fill), ⟨"t", "BUY", 3/5, 10, 0⟩,
           ⟨"t", "SELL", 7/10, 5, 0⟩], FillOk f := by
  intro f hf
  simp only [List.mem_cons, List.not_mem_nil, or_false] at hf
  rcases hf with rfl | rfl | rfl
  · exact ⟨Or.inl rfl, by norm_num, by norm_num, Or.inr (by norm_num), le_refl 0⟩
  · exact ⟨Or.inl rfl, by norm_num, by norm_num, Or.inr (by norm_num), le_refl 0⟩
  · exact ⟨Or.inr rfl, by norm_num, by norm_num, Or.inr (by norm_num), le_refl 0⟩

/-- C6 amended witness: the two-buy-one-sell scenario of the spec. -/
theorem C6_amended_witness :
    (∀ f ∈ [(⟨"t", "BUY", 2/5, 10, 0⟩ : Fill), ⟨"t", "BUY", 3/5, 10, 0⟩, ⟨"t", "SELL", 7/10, 5, 0⟩], FillOk f)
    ∧ (0 ≤ ((applyFills [⟨"t", "BUY", 2/5, 10, 0⟩, ⟨"t", "BUY", 3/5, 10, 0⟩, ⟨"t", "SELL", 7/10, 5, 0⟩] (emptyInv 1000)).pos "t").qty
       ∧ (((applyFills [⟨"t", "BUY", 2/5, 10, 0⟩, ⟨"t", "BUY", 3/5, 10, 0⟩, ⟨"t", "SELL", 7/10, 5, 0⟩] (emptyInv 1000)).pos "t").avg_cost = 0
          ↔ ((applyFills [⟨"t", "BUY", 2/5, 10, 0⟩, ⟨"t", "BUY", 3/5, 10, 0⟩, ⟨"t", "SELL", 7/10, 5, 0⟩] (emptyInv 1000)).pos "t").qty = 0)) :=
  ⟨fillsOkSpec, C6_amended_invariant _ fillsOkSpec 1000 "t"⟩

/-! ## Claim C8 -/

/-- A reason string of the reject-rate shape starts with `"reject_rate"`. -/
theorem reason_extends (x y z : String) :
    ∃ r : String, (("reject_rate=" ++ x) ++ y) ++ z = "reject_rate" ++ r := by
  refine ⟨(("=" ++ x) ++ y) ++ z, String.ext ?_⟩
  simp only [String.data_append]
  simp [List.append_assoc]

/-- C8: `should_halt` is true exactly when one of the three trip conditions
holds (reject rate at least the threshold with 20 placements seen, cancel
deque longer than the per-minute cap, or errors at the cap); and after 30
recorded placements of which 12 were rejections, with threshold 0.30, it
halts with a reason starting with `"reject_rate"`. The deque length is the
number of events in the last 60 seconds under `record_cancel`'s trimming. -/
theorem C8_should_halt_trips :
    (∀ cfg st, (shouldHalt cfg st).1 = true ↔
      ((cfg.max_reject_rate ≤ (st.rejected : ℚ) / ((max 1 st.placed : ℕ) : ℚ) ∧ 20 ≤ st.placed)
        ∨ cfg.max_cancels_per_min < (st.cancel_events.length : ℤ)
        ∨ cfg.max_errors ≤ st.errors))
    ∧ (shouldHalt cbDefaults cbAfter30).1 = true
    ∧ (∃ r, (shouldHalt cbDefaults cbAfter30).2 = "reject_rate" ++ r) := by
  have hiff : ∀ cfg st, (shouldHalt cfg st).1 = true ↔
      ((cfg.max_reject_rate ≤ (st.rejected : ℚ) / ((max 1 st.placed : ℕ) : ℚ) ∧ 20 ≤ st.placed)
        ∨ cfg.max_cancels_per_min < (st.cancel_events.length : ℤ)
        ∨ cfg.max_errors ≤ st.errors) := by
    intro cfg st
    simp only [shouldHalt]
    split_ifs with h1 h2 h3
    · simpa using Or.inl h1
    · simpa using Or.inr (Or.inl h2)
    · simpa using Or.inr (Or.inr h3)
    · simp only [Bool.false_eq_true, false_iff]
      push_neg at h1
      rintro (⟨ha, hb⟩ | hc | hd)
      · exact absurd hb (by simpa using h1 ha)
      · exact h2 hc
      · exact h3 hd
  have hst : cbAfter30 = ⟨30, 12, 0, []⟩ := by rfl
  have hcond : cbDefaults.max_reject_rate
      ≤ ((12:ℕ) : ℚ) / ((max 1 (30:ℕ) : ℕ) : ℚ) ∧ 20 ≤ (30:ℕ) := by
    constructor
    · norm_num [cbDefaults]
    · norm_num
  refine ⟨hiff, ?_, ?_⟩
  · rw [hst]
    exact (hiff cbDefaults ⟨30, 12, 0, []⟩).mpr (Or.inl hcond)
  · rw [hst]
    simp only [shouldHalt, if_pos hcond]
    exact reason_extends _ _ _

/-! ## Claim C3 -/

/-- Chained filters merge into one conjunctive filter. -/
theorem filter_filter_merge {α : Type} (l : List α) (p q : α → Bool) :
    (l.filter p).filter q = l.filter (fun o => p o && q o) := by
  induction l with
  | nil => rfl
  | cons o rest ih =>
    by_cases hp : p o <;> by_cases hq : q o <;>
      simp [List.filter_cons, hp, hq, ih]

/-- Counting the successfully cancelled stale orders entry by entry equals
the global count over all live orders. -/
theorem count_stale_flat (live : List (String × List LiveOrderState))
    (p q : LiveOrderState → Bool) :
    ((live.flatMap (fun e => e.2.filter p)).filter q).length
      = ((live.flatMap (fun e => e.2)).filter (fun o => p o && q o)).length := by
  induction live with
  | nil => rfl
  | cons e rest ih =>
    simp only [List.flatMap_cons, List.filter_append, List.length_append, ih,
      filter_filter_merge]

/-- C3 counterexample: with two live stale orders whose venue cancels both
succeed, `cancel_stale` reports 2 successful cancels, yet the control loop's
stale-cancel step grows the breaker's cancel-event count by only 1 — not by
the number of successful stale cancels as claimed. -/
theorem C3_counterexample :
    (staleCancelStep omStale CircuitState.init 100 (fun _ => true)).2.2 = 2
    ∧ ((staleCancelStep omStale CircuitState.init 100 (fun _ => true)).2.1).cancel_events.length = 1
    ∧ (1 : ℕ) ≠ 2 := by
  refine ⟨?_, ?_, by norm_num⟩ <;> decide

/-- C3 amended: `cancel_stale` removes exactly the live orders with
`now − created_ts ≥ cancel_reprice_sec` and returns the number of those whose
venue cancel succeeded; the control loop then records exactly one breaker
cancel event when that number is positive and none otherwise (amendment: one
event per token-step with at least one successful cancel, not one per
cancel). -/
theorem C3_amended_stale_cancel (st : OMState) (cb : CircuitState) (now : ℤ)
    (cancelOk : String → Bool)
    (hwin : ∀ t ∈ cb.cancel_events, now - t ≤ 60) :
    ((staleCancelStep st cb now cancelOk).1).live
        = st.live.map (fun e =>
            (e.1, e.2.filter (fun o => !staleOrder st.cancel_reprice_sec now o)))
    ∧ (staleCancelStep st cb now cancelOk).2.2
        = ((st.live.flatMap (fun e => e.2)).filter
            (fun o => staleOrder st.cancel_reprice_sec now o && cancelOk o.venue_order_id)).length
    ∧ ((staleCancelStep st cb now cancelOk).2.1).cancel_events.length
        = cb.cancel_events.length
          + (if (staleCancelStep st cb now cancelOk).2.2 = 0 then 0 else 1) := by
  refine ⟨rfl, ?_, ?_⟩
  · simp only [staleCancelStep, OMState.cancel_stale]
    exact count_stale_flat st.live _ _
  · simp only [staleCancelStep, OMState.cancel_stale]
    by_cases hz : ((st.live.flatMap (fun e =>
        e.2.filter (staleOrder st.cancel_reprice_sec now))).filter
          (fun o => cancelOk o.venue_order_id)).length = 0
    · simp only [hz, if_pos rfl]
      simp [hz]
    · simp only [if_neg hz, recordCancel]
      have hall : ∀ t ∈ cb.cancel_events ++ [now], now - t ≤ 60 := by
        intro t ht
        rcases List.mem_append.mp ht with h | h
        · exact hwin t h
        · rcases List.mem_singleton.mp h with rfl
          omega
      rw [trimEvents_noop now _ hall]
      simp [hz]

/-- C3 amended witness: one stale order with a successful cancel, breaker
deque holding one in-window event. -/
theorem C3_amended_witness :
    (∀ t ∈ (CircuitState.mk 0 0 0 [90]).cancel_events, (100:ℤ) - t ≤ 60)
    ∧ (((staleCancelStep omStale (CircuitState.mk 0 0 0 [90]) 100 (fun _ => true)).1).live
        = omStale.live.map (fun e =>
            (e.1, e.2.filter (fun o => !staleOrder omStale.cancel_reprice_sec 100 o)))
      ∧ (staleCancelStep omStale (CircuitState.mk 0 0 0 [90]) 100 (fun _ => true)).2.2
        = ((omStale.live.flatMap (fun e => e.2)).filter
            (fun o => staleOrder omStale.cancel_reprice_sec 100 o && true)).length
      ∧ (((staleCancelStep omStale (CircuitState.mk 0 0 0 [90]) 100 (fun _ => true)).2.1).cancel_events.length
        = (CircuitState.mk 0 0 0 [90]).cancel_events.length
          + (if (staleCancelStep omStale (CircuitState.mk 0 0 0 [90]) 100 (fun _ => true)).2.2 = 0 then 0 else 1))) := by
  constructor
  · intro t ht
    simp only [List.mem_singleton] at ht
    omega
  · exact C3_amended_stale_cancel omStale (CircuitState.mk 0 0 0 [90]) 100 (fun _ => true)
      (by intro t ht; simp only [List.mem_singleton] at ht; omega)

/-! ## Claim C7 -/

/-- The guard on a crossing BUY: adjusted one tick below the best ask, or
blocked when the adjustment is non-positive. -/
theorem guard_buy_cross (tick : Option ℚ) (price a : ℚ) (bb : Option ℚ) (h : a ≤ price) :
    guardPostOnly true tick "BUY" price bb (some a)
      = (if 0 < a - tickOr tick then some (a - tickOr tick) else none) := by
  simp [guardPostOnly, h]

/-- The guard on a crossing SELL: adjusted one tick above the best bid, or
blocked when the adjustment reaches 1. -/
theorem guard_sell_cross (tick : Option ℚ) (price b : ℚ) (ba : Option ℚ) (h : price ≤ b) :
    guardPostOnly true tick "SELL" price (some b) ba
      = (if b + tickOr tick < 1 then some (b + tickOr tick) else none) := by
  simp [guardPostOnly, h]

/-- With an empty book the guard passes every price through unchanged. -/
theorem guard_empty_book (po : Bool) (tick : Option ℚ) (side : String) (price : ℚ) :
    guardPostOnly po tick side price none none = some price := by
  unfold guardPostOnly
  split_ifs <;> rfl

/-- A blocked guard short-circuits `place_or_replace`: failure result, state
untouched, no rows written. -/
theorem place_blocked (st : OMState) (now : ℤ) (cancelOk : String → Bool)
    (place : ℚ → ℚ → PlaceOrderResult) (cid tok side0 : String) (price0 size : ℚ)
    (bb ba : Option ℚ)
    (hg : guardPostOnly st.post_only st.tick_size (pyUpper side0) price0 bb ba = none) :
    st.place_or_replace now cancelOk place cid tok side0 price0 size bb ba
      = { res := { success := false, venue_order_id := none
                 , error := some "post_only_guard_blocked", raw_action := none }
        , st := st, rows := [] } := by
  simp only [OMState.place_or_replace, hg]

/-- When the guard passes price `p`, the venue is asked to place at `p` and
the call returns the venue's result. -/
theorem place_res_venue (st : OMState) (now : ℤ) (cancelOk : String → Bool)
    (place : ℚ → ℚ → PlaceOrderResult) (cid tok side0 : String) (price0 size : ℚ)
    (bb ba : Option ℚ) (p : ℚ)
    (hg : guardPostOnly st.post_only st.tick_size (pyUpper side0) price0 bb ba = some p) :
    (st.place_or_replace now cancelOk place cid tok side0 price0 size bb ba).res
      = place p size := by
  simp only [OMState.place_or_replace, hg]

/-- C7: with post-only enabled, a BUY at `p ≥ best_ask` is adjusted to
`best_ask − tick` (tick falling back to `1e-3` when unknown) and fails with
`post_only_guard_blocked` exactly when the adjusted price is `≤ 0`; a SELL at
`p ≤ best_bid` is adjusted to `best_bid + tick` and fails exactly when the
adjusted price is `≥ 1`; with an empty book the price reaches the venue
unchanged and the guard never blocks. -/
theorem C7_post_only_guard (st : OMState) (now : ℤ) (cancelOk : String → Bool)
    (place : ℚ → ℚ → PlaceOrderResult) (cid tok : String) (price size : ℚ)
    (hpo : st.post_only = true) :
    (∀ (a : ℚ) (bb : Option ℚ), a ≤ price →
      (a - tickOr st.tick_size ≤ 0 →
        st.place_or_replace now cancelOk place cid tok "BUY" price size bb (some a)
          = { res := { success := false, venue_order_id := none
                     , error := some "post_only_guard_blocked", raw_action := none }
            , st := st, rows := [] })
      ∧ (0 < a - tickOr st.tick_size →
        (st.place_or_replace now cancelOk place cid tok "BUY" price size bb (some a)).res
          = place (a - tickOr st.tick_size) size))
    ∧ (∀ (b : ℚ) (ba : Option ℚ), price ≤ b →
      (1 ≤ b + tickOr st.tick_size →
        st.place_or_replace now cancelOk place cid tok "SELL" price size (some b) ba
          = { res := { success := false, venue_order_id := none
                     , error := some "post_only_guard_blocked", raw_action := none }
            , st := st, rows := [] })
      ∧ (b + tickOr st.tick_size < 1 →
        (st.place_or_replace now cancelOk place cid tok "SELL" price size (some b) ba).res
          = place (b + tickOr st.tick_size) size))
    ∧ (∀ side0 : String,
        (st.place_or_replace now cancelOk place cid tok side0 price size none none).res
          = place price size) := by
  refine ⟨?_, ?_, ?_⟩
  · intro a bb ha
    have hg := guard_buy_cross st.tick_size price a bb ha
    rw [← hpo] at hg
    constructor
    · intro hle
      have hg' : guardPostOnly st.post_only st.tick_size (pyUpper "BUY") price bb (some a) = none := by
        rw [pyUpperBUY, hg, if_neg (not_lt.mpr hle)]
      exact place_blocked st now cancelOk place cid tok "BUY" price size bb (some a) hg'
    · intro hlt
      have hg' : guardPostOnly st.post_only st.tick_size (pyUpper "BUY") price bb (some a)
          = some (a - tickOr st.tick_size) := by
        rw [pyUpperBUY, hg, if_pos hlt]
      exact place_res_venue st now cancelOk place cid tok "BUY" price size bb (some a) _ hg'
  · intro b ba hb
    have hg := guard_sell_cross st.tick_size price b ba hb
    rw [← hpo] at hg
    constructor
    · intro hge
      have hg' : guardPostOnly st.post_only st.tick_size (pyUpper "SELL") price (some b) ba = none := by
        rw [pyUpperSELL, hg, if_neg (not_lt.mpr hge)]
      exact place_blocked st now cancelOk place cid tok "SELL" price size (some b) ba hg'
    · intro hlt
      have hg' : guardPostOnly st.post_only st.tick_size (pyUpper "SELL") price (some b) ba
          = some (b + tickOr st.tick_size) := by
        rw [pyUpperSELL, hg, if_pos hlt]
      exact place_res_venue st now cancelOk place cid tok "SELL" price size (some b) ba _ hg'
  · intro side0
    exact place_res_venue st now cancelOk place cid tok side0 price size none none price
      (guard_empty_book st.post_only st.tick_size (pyUpper side0) price)

/-- C7 witness: a BUY at `0.51` against best ask `0.50` with tick `0.01` is
adjusted to `0.49` and reaches the venue. -/
theorem C7_witness :
    omPost.post_only = true ∧ (1/2 : ℚ) ≤ 51/100 ∧ 0 < (1/2 : ℚ) - tickOr omPost.tick_size
    ∧ (omPost.place_or_replace 0 (fun _ => true)
        (fun _ _ => ⟨true, some "v", none, none⟩) "c" "t" "BUY" (51/100) 10 none (some (1/2))).res
      = (fun _ _ => (⟨true, some "v", none, none⟩ : PlaceOrderResult))
          ((1/2 : ℚ) - tickOr omPost.tick_size) 10 := by
  have htick : 0 < (1/2 : ℚ) - tickOr omPost.tick_size := by
    norm_num [tickOr, omPost]
  refine ⟨rfl, by norm_num, htick, ?_⟩
  exact ((C7_post_only_guard omPost 0 (fun _ => true)
      (fun _ _ => ⟨true, some "v", none, none⟩) "c" "t" (51/100) 10 rfl).1
      (1/2) none (by norm_num)).2 htick

/-! ## Claim C1 -/

/-- C1 (against the spec-modelled paper exchange): a `place_or_replace` call
for an order identical (same side, price within a tick so that
`_price_changed` is false, same size) to the sole live order — with the guard
passing the price through and capacity not binding — returns the venue's
SKIP result with `success = true` and `raw.action = "SKIP"`, leaves
`live[token]` unchanged, and the control loop's breaker-counting step leaves
the circuit state untouched. -/
theorem C1_skip_semantics (st : OMState) (cb : CircuitState) (now : ℤ)
    (cancelOk : String → Bool) (cid tok side0 : String) (price size : ℚ)
    (old : LiveOrderState) (bb ba : Option ℚ)
    (hlive : dictGetD st.live tok [] = [old])
    (hside : old.side = pyUpper side0)
    (hprice : st.price_changed old.price price = false)
    (hsz : old.size = size)
    (hguard : guardPostOnly st.post_only st.tick_size (pyUpper side0) price bb ba = some price)
    (hmax : 1 < st.max_orders_per_token) :
    (st.place_or_replace now cancelOk (fun _ _ => skipPlaceResult) cid tok side0 price size bb ba).res.success = true
    ∧ (st.place_or_replace now cancelOk (fun _ _ => skipPlaceResult) cid tok side0 price size bb ba).res.raw_action = some "SKIP"
    ∧ dictGetD (st.place_or_replace now cancelOk (fun _ _ => skipPlaceResult) cid tok side0 price size bb ba).st.live tok []
        = dictGetD st.live tok []
    ∧ loopCountPlace cb (st.place_or_replace now cancelOk (fun _ _ => skipPlaceResult) cid tok side0 price size bb ba).res = cb := by
  have hpred : ∀ o ∈ [old],
      ((o.side = pyUpper side0 : Bool) && st.price_changed o.price price) = false := by
    intro o ho
    rcases List.mem_singleton.mp ho with rfl
    rw [hprice, Bool.and_false]
  have hpold := hpred old (List.mem_singleton.mpr rfl)
  have hlen : ¬ (st.max_orders_per_token ≤ (([old] : List LiveOrderState).length : ℤ)) := by
    simp only [List.length_cons, List.length_nil]
    push_cast
    omega
  have hcap : capacityCancel st.max_orders_per_token
      (fun o => capRow st tok now (cancelOk o.venue_order_id) o) [old] = ([old], []) := by
    rw [capacityCancel, if_neg hlen]
  simp only [OMState.place_or_replace, hguard, hlive, afterReplace]
  simp [hpold, hcap, skipPlaceResult, venueTruthy, dictGetD_dictSet, hlive, loopCountPlace]
  have hfilter : List.filter
      (fun o => !(o.side = pyUpper side0 : Bool) || !st.price_changed o.price price) [old]
        = [old] := by
    simp [hprice]
  rw [hfilter, hcap]

/-- C1 witness: a repeat of the sole live BUY at the same price and size is
skipped, leaves the live table unchanged and the breaker untouched. -/
theorem C1_skip_witness :
    dictGetD omSkip.live "t" [] = [⟨"l1", "v1", "t", "BUY", 1/2, 10, 0⟩]
    ∧ (⟨"l1", "v1", "t", "BUY", 1/2, 10, 0⟩ : LiveOrderState).side = pyUpper "BUY"
    ∧ omSkip.price_changed (1/2) (1/2) = false
    ∧ (1:ℤ) < omSkip.max_orders_per_token
    ∧ ((omSkip.place_or_replace 7 (fun _ => true) (fun _ _ => skipPlaceResult)
          "c" "t" "BUY" (1/2) 10 none none).res.success = true
      ∧ (omSkip.place_or_replace 7 (fun _ => true) (fun _ _ => skipPlaceResult)
          "c" "t" "BUY" (1/2) 10 none none).res.raw_action = some "SKIP"
      ∧ dictGetD (omSkip.place_or_replace 7 (fun _ => true) (fun _ _ => skipPlaceResult)
          "c" "t" "BUY" (1/2) 10 none none).st.live "t" [] = dictGetD omSkip.live "t" []
      ∧ loopCountPlace (CircuitState.mk 3 1 0 [])
          (omSkip.place_or_replace 7 (fun _ => true) (fun _ _ => skipPlaceResult)
            "c" "t" "BUY" (1/2) 10 none none).res = CircuitState.mk 3 1 0 []) := by
  have hside : (⟨"l1", "v1", "t", "BUY", 1/2, 10, 0⟩ : LiveOrderState).side = pyUpper "BUY" := by
    rw [pyUpperBUY]
  have hprice : omSkip.price_changed (1/2) (1/2) = false := by
    simp only [OMState.price_changed, omSkip]
    norm_num
  refine ⟨rfl, hside, hprice, by norm_num [omSkip], ?_⟩
  exact C1_skip_semantics omSkip (CircuitState.mk 3 1 0 []) 7 (fun _ => true) "c" "t" "BUY"
    (1/2) 10 _ none none rfl hside hprice rfl rfl (by norm_num [omSkip])

/-! ## Claim C10 -/

/-- The last element of a list ending in an explicit singleton. -/
theorem getLast?_append_single {α : Type} (l : List α) (a : α) :
    (l ++ [a]).getLast? = some a := by
  induction l with
  | nil => rfl
  | cons x rest ih =>
    rw [List.cons_append, List.getLast?_cons, ih]
    rfl

/-- Every row emitted by the capacity pass is a cancel row built by `mkRow`. -/
theorem capacityCancel_rows_shape (maxN : ℤ) (mkRow : LiveOrderState → OrderRow) :
    ∀ (l : List LiveOrderState) (q : OrderRow),
      q ∈ (capacityCancel maxN mkRow l).2 → ∃ o, q = mkRow o := by
  intro l
  induction l with
  | nil => intro q hq; simp [capacityCancel] at hq
  | cons o rest ih =>
    intro q hq
    rw [capacityCancel] at hq
    by_cases hc : maxN ≤ (((o :: rest).length : ℕ) : ℤ)
    · rw [if_pos hc] at hq
      rcases List.mem_cons.mp hq with h | h
      · exact ⟨o, h⟩
      · exact ih q h
    · rw [if_neg hc] at hq
      simp at hq

/-- C10 counterexample: a venue result with `success = true` and the non-null
but empty `venue_order_id = ""` does not get appended to `live[token]`,
refuting "appended iff success and non-null venue_order_id". -/
theorem C10_counterexample :
    (omBase.place_or_replace 7 (fun _ => true)
        (fun _ _ => ⟨true, some "", none, none⟩) "c" "t" "BUY" 1 10 none none).res.success = true
    ∧ (omBase.place_or_replace 7 (fun _ => true)
        (fun _ _ => ⟨true, some "", none, none⟩) "c" "t" "BUY" 1 10 none none).res.venue_order_id ≠ none
    ∧ dictGetD (omBase.place_or_replace 7 (fun _ => true)
        (fun _ _ => ⟨true, some "", none, none⟩) "c" "t" "BUY" 1 10 none none).st.live "t" [] = [] := by
  refine ⟨rfl, by simp [OMState.place_or_replace, guardPostOnly, omBase], ?_⟩
  have hg : guardPostOnly omBase.post_only omBase.tick_size (pyUpper "BUY") 1 none none
      = some 1 := rfl
  simp only [OMState.place_or_replace, hg, omBase, afterReplace, dictGetD, capacityCancel,
    venueTruthy]
  norm_num [dictSet, dictGetD]

/-- C10 amended: when the guard passes price `p`, `place_or_replace` returns
the venue's result for `(p, size)`; a new `LiveOrderState` is appended to
`live[token]` iff the result has `success = true` and a non-null, non-empty
`venue_order_id` (amendment: the empty string does not count); otherwise —
in particular on a failed placement — `live[token]` is exactly the list left
by the replace and capacity passes, and on failure the final persisted row
has status `REJECTED` and no row has status `PLACED`. -/
theorem C10_amended_placement (st : OMState) (now : ℤ) (cancelOk : String → Bool)
    (place : ℚ → ℚ → PlaceOrderResult) (cid tok side0 : String) (price0 size : ℚ)
    (bb ba : Option ℚ) (p : ℚ)
    (hg : guardPostOnly st.post_only st.tick_size (pyUpper side0) price0 bb ba = some p) :
    ((st.place_or_replace now cancelOk place cid tok side0 price0 size bb ba).res = place p size)
    ∧ ((place p size).success = true ∧ venueTruthy (place p size).venue_order_id = true →
        ∃ newo : LiveOrderState,
          dictGetD (st.place_or_replace now cancelOk place cid tok side0 price0 size bb ba).st.live tok []
            = (capacityCancel st.max_orders_per_token
                (fun o => capRow st tok now (cancelOk o.venue_order_id) o)
                (afterReplace st (pyUpper side0) p (dictGetD st.live tok []))).1 ++ [newo]
          ∧ newo.side = pyUpper side0 ∧ newo.price = p ∧ newo.size = size ∧ newo.created_ts = now)
    ∧ (¬ ((place p size).success = true ∧ venueTruthy (place p size).venue_order_id = true) →
        dictGetD (st.place_or_replace now cancelOk place cid tok side0 price0 size bb ba).st.live tok []
          = (capacityCancel st.max_orders_per_token
              (fun o => capRow st tok now (cancelOk o.venue_order_id) o)
              (afterReplace st (pyUpper side0) p (dictGetD st.live tok []))).1)
    ∧ ((place p size).success = false →
        (∃ r, ((st.place_or_replace now cancelOk place cid tok side0 price0 size bb ba).rows).getLast? = some r
          ∧ r.status = "REJECTED")
        ∧ ∀ q ∈ (st.place_or_replace now cancelOk place cid tok side0 price0 size bb ba).rows,
            q.status ≠ "PLACED") := by
  refine ⟨place_res_venue st now cancelOk place cid tok side0 price0 size bb ba p hg, ?_, ?_, ?_⟩
  · intro h
    simp only [OMState.place_or_replace, hg]
    rw [if_pos (by rw [Bool.and_eq_true]; exact h)]
    rw [dictGetD_dictSet]
    exact ⟨_, rfl, rfl, rfl, rfl, rfl⟩
  · intro h
    simp only [OMState.place_or_replace, hg]
    rw [if_neg (by rw [Bool.and_eq_true]; exact h)]
    rw [dictGetD_dictSet]
  · intro h
    constructor
    · simp only [OMState.place_or_replace, hg]
      rw [getLast?_append_single]
      refine ⟨_, rfl, ?_⟩
      rw [h, if_neg (show ¬ (false = true) from by decide)]
    · intro q hq
      simp only [OMState.place_or_replace, hg] at hq
      rcases List.mem_append.mp hq with hq1 | hq2
      · rcases List.mem_append.mp hq1 with hq3 | hq4
        · rcases List.mem_map.mp hq3 with ⟨o, _, rfl⟩
          simp only [repriceRow]
          by_cases hok : cancelOk o.venue_order_id <;> simp [hok]
        · rcases capacityCancel_rows_shape _ _ _ _ hq4 with ⟨o, rfl⟩
          simp only [capRow]
          by_cases hok : cancelOk o.venue_order_id <;> simp [hok]
      · rcases List.mem_singleton.mp hq2 with rfl
        simp only [h, Bool.false_eq_true, if_neg (show ¬ (false = true) from by decide)]
        decide

/-- C10 amended witness: a rejected placement persists a final REJECTED row
and no PLACED row. -/
theorem C10_amended_witness :
    (guardPostOnly omBase.post_only omBase.tick_size (pyUpper "SELL") (1:ℚ) none none = some 1)
    ∧ ((∃ r, ((omBase.place_or_replace 7 (fun _ => true)
          (fun _ _ => (⟨false, none, some "rejected", none⟩ : PlaceOrderResult))
          "c" "t" "SELL" 1 10 none none).rows).getLast? = some r ∧ r.status = "REJECTED")
      ∧ ∀ q ∈ (omBase.place_or_replace 7 (fun _ => true)
          (fun _ _ => (⟨false, none, some "rejected", none⟩ : PlaceOrderResult))
          "c" "t" "SELL" 1 10 none none).rows, q.status ≠ "PLACED") :=
  ⟨rfl, (C10_amended_placement omBase 7 (fun _ => true)
    (fun _ _ => (⟨false, none, some "rejected", none⟩ : PlaceOrderResult))
    "c" "t" "SELL" 1 10 none none 1 rfl).2.2.2 rfl⟩

/-! ## Claim C9 -/

/-- The per-token simulator loop is independent of the UUID source and of the
UUID counter in everything except the trade ids: kept orders, final PRNG
state and statistics coincide, and the `(fill_size, status, price)` outcome
sequences are equal. -/
theorem simLoop_uuid_indep (draw : ℕ → ℕ → ℚ) (gaussDraw : ℕ → ℕ → ℚ → ℚ)
    (betaDraw : ℕ → ℕ → ℚ → ℚ → ℚ) (cfg : SimCfg) (tick base_p : ℚ)
    (mid bb ba : Option ℚ) (tok : String) (now : ℤ) (u1 u2 : ℕ → String) :
    ∀ (lst : List LiveOrderState) (rng : RNG) (n1 n2 : ℕ),
      (simLoop draw gaussDraw betaDraw cfg tick base_p mid bb ba tok now u1 lst rng n1).1
        = (simLoop draw gaussDraw betaDraw cfg tick base_p mid bb ba tok now u2 lst rng n2).1
      ∧ (simLoop draw gaussDraw betaDraw cfg tick base_p mid bb ba tok now u1 lst rng n1).2.1
        = (simLoop draw gaussDraw betaDraw cfg tick base_p mid bb ba tok now u2 lst rng n2).2.1
      ∧ (simLoop draw gaussDraw betaDraw cfg tick base_p mid bb ba tok now u1 lst rng n1).2.2.2.1
        = (simLoop draw gaussDraw betaDraw cfg tick base_p mid bb ba tok now u2 lst rng n2).2.2.2.1
      ∧ outcomesOf (simLoop draw gaussDraw betaDraw cfg tick base_p mid bb ba tok now u1 lst rng n1).2.2.2.2
        = outcomesOf (simLoop draw gaussDraw betaDraw cfg tick base_p mid bb ba tok now u2 lst rng n2).2.2.2.2 := by
  intro lst
  induction lst with
  | nil => intro rng n1 n2; exact ⟨rfl, rfl, rfl, rfl⟩
  | cons o rest ih =>
    intro rng n1 n2
    simp only [simLoop]
    rcases hev : (simOrder draw gaussDraw betaDraw cfg tick mid bb ba base_p rng o).2.1 with _ | ev
    · simp only [hev]
      obtain ⟨e1, e2, e3, e4⟩ :=
        ih (simOrder draw gaussDraw betaDraw cfg tick mid bb ba base_p rng o).2.2 n1 n2
      exact ⟨by rw [e1], e2, e3, e4⟩
    · simp only [hev]
      obtain ⟨e1, e2, e3, e4⟩ :=
        ih (simOrder draw gaussDraw betaDraw cfg tick mid bb ba base_p rng o).2.2 (n1 + 1) (n2 + 1)
      refine ⟨by rw [e1], e2, by rw [e3], ?_⟩
      simp only [outcomesOf, List.map_cons] at e4 ⊢
      rw [e4]

/-- One simulator tick is independent of the UUID source: from states that
agree on live tables and PRNG, the resulting live tables, PRNG states and
statistics agree and the outcome sequences are equal. -/
theorem simulateFills_uuid_indep (draw : ℕ → ℕ → ℚ) (gaussDraw : ℕ → ℕ → ℚ → ℚ)
    (betaDraw : ℕ → ℕ → ℚ → ℚ → ℚ) (rexp : ℚ → ℚ) (cfg : SimCfg) (tick : Option ℚ)
    (u1 u2 : ℕ → String) (inp : SimIn) (s1 s2 : SimState)
    (hl : s1.live = s2.live) (hr : s1.rng = s2.rng) :
    (simulateFills draw gaussDraw betaDraw rexp cfg tick u1 inp s1).1.live
      = (simulateFills draw gaussDraw betaDraw rexp cfg tick u2 inp s2).1.live
    ∧ (simulateFills draw gaussDraw betaDraw rexp cfg tick u1 inp s1).1.rng
      = (simulateFills draw gaussDraw betaDraw rexp cfg tick u2 inp s2).1.rng
    ∧ (simulateFills draw gaussDraw betaDraw rexp cfg tick u1 inp s1).2.1
      = (simulateFills draw gaussDraw betaDraw rexp cfg tick u2 inp s2).2.1
    ∧ outcomesOf (simulateFills draw gaussDraw betaDraw rexp cfg tick u1 inp s1).2.2
      = outcomesOf (simulateFills draw gaussDraw betaDraw rexp cfg tick u2 inp s2).2.2 := by
  simp only [simulateFills]
  by_cases h1 : cfg.is_paper = false
  · rw [if_pos h1, if_pos h1]
    exact ⟨hl, hr, rfl, rfl⟩
  · rw [if_neg h1, if_neg h1]
    by_cases h2 : cfg.sim_enabled = false
    · rw [if_pos h2, if_pos h2]
      exact ⟨hl, hr, rfl, rfl⟩
    · rw [if_neg h2, if_neg h2]
      rw [← hl]
      by_cases h3 : dictGetD s1.live inp.token_id [] = []
      · rw [if_pos h3, if_pos h3]
        exact ⟨hl, hr, rfl, rfl⟩
      · rw [if_neg h3, if_neg h3]
        obtain ⟨e1, e2, e3, e4⟩ := simLoop_uuid_indep draw gaussDraw betaDraw cfg
          (tickOr tick) (1 - rexp (-(max 0 (inp.intensity_override.getD cfg.fill_intensity))
            * max (1/10) inp.dt_sec))
          inp.midpoint inp.best_bid inp.best_ask inp.token_id inp.ts u1 u2
          (dictGetD s1.live inp.token_id []) s1.rng s1.uuidn s2.uuidn
        rw [← hr]
        refine ⟨?_, ?_, e3, e4⟩
        · simp only [e1]
        · exact e2

/-- A multi-tick run is independent of the UUID source in its outcome
sequence. -/
theorem runSimFrom_uuid_indep (draw : ℕ → ℕ → ℚ) (gaussDraw : ℕ → ℕ → ℚ → ℚ)
    (betaDraw : ℕ → ℕ → ℚ → ℚ → ℚ) (rexp : ℚ → ℚ) (cfg : SimCfg) (tick : Option ℚ)
    (u1 u2 : ℕ → String) :
    ∀ (steps : List SimIn) (s1 s2 : SimState), s1.live = s2.live → s1.rng = s2.rng →
      outcomesOf (runSimFrom draw gaussDraw betaDraw rexp cfg tick u1 steps s1).2
        = outcomesOf (runSimFrom draw gaussDraw betaDraw rexp cfg tick u2 steps s2).2 := by
  intro steps
  induction steps with
  | nil => intro s1 s2 _ _; rfl
  | cons i rest ih =>
    intro s1 s2 hl hr
    obtain ⟨e1, e2, _, e4⟩ :=
      simulateFills_uuid_indep draw gaussDraw betaDraw rexp cfg tick u1 u2 i s1 s2 hl hr
    have hrec := ih (simulateFills draw gaussDraw betaDraw rexp cfg tick u1 i s1).1
      (simulateFills draw gaussDraw betaDraw rexp cfg tick u2 i s2).1 e1 e2
    simp only [runSimFrom, outcomesOf, List.map_append] at e4 hrec ⊢
    rw [e4, hrec]

/-- C9: two paper runs with the same run identifier, the same initial live
orders and identical per-step inputs produce identical
`(fill_size, status, price)` outcome sequences whatever the UUID source
produces (the only nondeterministic input, used solely for trade ids); the
PRNG is seeded from the run identifier and the seed is its stable hash
reduced to the lower 32 bits. -/
theorem C9_sim_determinism (draw : ℕ → ℕ → ℚ) (gaussDraw : ℕ → ℕ → ℚ → ℚ)
    (betaDraw : ℕ → ℕ → ℚ → ℚ → ℚ) (rexp : ℚ → ℚ) (cfg : SimCfg) (tick : Option ℚ)
    (u1 u2 : ℕ → String) (run_id : String)
    (live0 : List (String × List LiveOrderState)) (steps : List SimIn) :
    outcomesOf (runSim draw gaussDraw betaDraw rexp cfg tick u1 run_id live0 steps).2
      = outcomesOf (runSim draw gaussDraw betaDraw rexp cfg tick u2 run_id live0 steps).2
    ∧ seedFromRunId run_id < 2^32 := by
  constructor
  · exact runSimFrom_uuid_indep draw gaussDraw betaDraw rexp cfg tick u1 u2 steps
      ⟨live0, ⟨seedFromRunId run_id, 0⟩, 0⟩ ⟨live0, ⟨seedFromRunId run_id, 0⟩, 0⟩ rfl rfl
  · unfold seedFromRunId
    rcases uuidIntOf run_id with _ | n
    · exact Nat.mod_lt _ (by norm_num)
    · exact Nat.mod_lt _ (by norm_num)

/-! ## Claim C4 -/

/-- Every element of the clipping pass is at most the per-market maximum. -/
theorem clipped_le_max (A : CapitalAllocator) (l : List ℝ) :
    ∀ c ∈ l.map (fun v => if A.max_per_market < v then A.max_per_market else v),
      c ≤ A.max_per_market := by
  intro c hc
  rcases List.mem_map.mp hc with ⟨v, _, rfl⟩
  split_ifs with h
  · exact le_refl _
  · exact le_of_not_lt h

/-- Every element of the overflow-redistribution pass is at most the
per-market maximum, given the clipped inputs are. -/
theorem withAdd_le_max (A : CapitalAllocator) (l2 lc : List ℝ) (add : ℝ)
    (hc : ∀ c ∈ lc, c ≤ A.max_per_market) :
    ∀ x ∈ (l2.zip lc).map
        (fun p => if A.max_per_market < p.1 then p.2 else min A.max_per_market (p.2 + add)),
      x ≤ A.max_per_market := by
  intro x hx
  rcases List.mem_map.mp hx with ⟨p, hp, rfl⟩
  split_ifs with h
  · exact hc p.2 (List.of_mem_zip hp).2
  · exact min_le_left _ _

/-- Values in the pinned-minimums early return are clipped by the maximum. -/
theorem pinned_branch_le_max (A : CapitalAllocator) (l : List (MarketFeatures × Bool))
    (q : String × ℝ)
    (hq : q ∈ l.filterMap (fun p =>
      if p.2 then some (p.1.condition_id, min A.max_per_market A.min_per_market) else none)) :
    q.2 ≤ A.max_per_market := by
  rcases List.mem_filterMap.mp hq with ⟨p, _, hf⟩
  split at hf
  · rcases Option.some.inj hf with rfl
    exact min_le_left _ _
  · exact absurd hf (by simp)

/-- Values in the final merge are bounded by the maximum whenever the
re-distributed values are and the minimum does not exceed the maximum. -/
theorem main_branch_le_max (A : CapitalAllocator) (hmm : A.min_per_market ≤ A.max_per_market)
    (feats : List MarketFeatures) (wa : List ℝ) (pins : List Bool) (q : String × ℝ)
    (hwa : ∀ x ∈ wa, x ≤ A.max_per_market)
    (hq : q ∈ (feats.zip (wa.zip pins)).map
      (fun p => (p.1.condition_id, if p.2.2 then A.min_per_market else p.2.1))) :
    q.2 ≤ A.max_per_market := by
  rcases List.mem_map.mp hq with ⟨⟨f0, x, b⟩, hpr, rfl⟩
  split_ifs with hpin
  · exact hmm
  · exact hwa x (List.of_mem_zip (List.of_mem_zip hpr).2).1

/-- C4 amended: when `min_per_market ≤ max_per_market`, every value returned
by the allocator is at most `max_per_market`. (The claim's other parts fail:
the returned values need not sum to the budget and need not reach
`min_per_market`; see the counterexample.) -/
theorem C4_amended_max_bound (A : CapitalAllocator) (feats : List MarketFeatures)
    (hmm : A.min_per_market ≤ A.max_per_market) :
    ∀ q ∈ allocate A feats, q.2 ≤ A.max_per_market := by
  intro q hq
  simp only [allocate] at hq
  by_cases hemp : feats.isEmpty
  · rw [if_pos hemp] at hq
    simp at hq
  · rw [if_neg hemp] at hq
    split at hq <;> split at hq
    all_goals first
      | exact pinned_branch_le_max A _ q hq
      | exact main_branch_le_max A hmm _ _ _ q (fun x hx => by
          split at hx
          · exact withAdd_le_max A _ _ _ (clipped_le_max A _) x hx
          · exact clipped_le_max A _ x hx) hq

/-- C4 amended witness at the two-market counterexample configuration. -/
theorem C4_amended_witness :
    allocCfg0.min_per_market ≤ allocCfg0.max_per_market
    ∧ ∀ q ∈ allocate allocCfg0 [feat1, feat2], q.2 ≤ allocCfg0.max_per_market :=
  ⟨by norm_num [allocCfg0],
   C4_amended_max_bound allocCfg0 [feat1, feat2] (by norm_num [allocCfg0])⟩

/-- Weight of a pinned counterexample market: liquidity 18, power 1, no
history, so quality is clipped at `0.5` and the weight is `9`. -/
theorem weight_featPin (name : String) : weightOf allocCfg0 (featPin name) = 9 := by
  simp only [weightOf, allocCfg0, featPin]
  norm_num [max_def, min_def, Real.rpow_one, Real.exp_zero]

/-- Weight of the middle counterexample market: liquidity 20, so weight `10`. -/
theorem weight_featMid : weightOf allocCfg0 featMid = 10 := by
  simp only [weightOf, allocCfg0, featMid]
  norm_num [max_def, min_def, Real.rpow_one, Real.exp_zero]

/-- Weight of the dominant counterexample market: liquidity 250, so weight
`125`. -/
theorem weight_featBig : weightOf allocCfg0 featBig = 125 := by
  simp only [weightOf, allocCfg0, featBig]
  norm_num [max_def, min_def, Real.rpow_one, Real.exp_zero]

/-- C4 counterexample: on budget 100 with per-market range `[5, 60]` and the
nine markets of `feats9`, the allocator returns the seven pinned minimums,
`1045/216 ≈ 4.84` for market `q` and the maximum `60` for market `r`. This
single input refutes both conjuncts of the claim: the returned values sum to
`21565/216 ≈ 99.84`, not to the budget `100`, and the value `1045/216` of a
returned market lies strictly below `min_per_market = 5` (market `q` escapes
the min pass, is re-allocated below the minimum, and the overflow share it
receives back is too small to restore it). -/
theorem C4_counterexample :
    allocate allocCfg0 feats9
      = [("p1", 5), ("p2", 5), ("p3", 5), ("p4", 5), ("p5", 5), ("p6", 5), ("p7", 5),
         ("q", 1045/216), ("r", 60)]
    ∧ ((allocate allocCfg0 feats9).map Prod.snd).sum = 21565/216
    ∧ allocCfg0.total_budget_usd = 100
    ∧ (21565/216 : ℝ) ≠ 100
    ∧ allocCfg0.min_per_market = 5
    ∧ (1045/216 : ℝ) < 5 := by
  have h : allocate allocCfg0 feats9
      = [("p1", 5), ("p2", 5), ("p3", 5), ("p4", 5), ("p5", 5), ("p6", 5), ("p7", 5),
         ("q", 1045/216), ("r", 60)] := by
    simp only [allocate, feats9]
    rw [if_neg (by decide)]
    simp only [List.map_cons, List.map_nil, weight_featPin, weight_featMid, weight_featBig]
    norm_num [allocCfg0, featPin, featMid, featBig, max_def, min_def, List.count_cons,
      List.count_nil, List.zip_cons_cons, List.filterMap_cons, List.sum_cons, List.sum_nil]
  refine ⟨h, ?_, by norm_num [allocCfg0], by norm_num, by norm_num [allocCfg0], by norm_num⟩
  rw [h]
  norm_num

end PMM
